import Mathlib

/-!
# Fun Math snake game: question generator and progression machine

A shallow embedding of `src/game.js`.

Modelling conventions.

* JavaScript numbers that hold integers are `Int` (or `Nat` for counters that
  only count up from zero); magnitudes stay far below `2^53`, so arithmetic is
  exact.
* `Math.random()` is a `Draw`: a rational `num / den` with `num < den`, that is a
  value in `[0, 1)`.  `Math.floor(Math.random() * n)` is the floor of the exact
  product, and the thresholds `0.7` and `0.5` are the exact rationals.  A
  function reads its draws from a stream `Nat → Draw` at an index that it
  advances by one for every call of `Math.random()`.
* A question key is the template string `num1+num2=answer`; for integers it
  determines the three numbers, so the key is the triple itself and
  `usedQuestions` (a JavaScript `Set`) is a list without order significance.
* Canvas drawing, the balloon, the fireworks and the placement and drift of the
  two answer blocks are presentation and are left out, and so are `snake.value`
  and `snake.segments`, which are written but never read.  The two results of
  `isBlockCollision` in `update` are inputs of a tick.
* `setTimeout` callbacks are counted in `pendingGenerate` / `pendingNextLevel`
  and fire as separate events.
* A loop without a bound in the source takes a fuel argument; running out of
  fuel is the outcome `hang`.  An uncaught `TypeError` is the outcome `threw`,
  carrying the global state at the moment of the throw.
-/

namespace FunMath

/-! ## Random draws -/

/-- One result of `Math.random()`: the rational `num / den`, in `[0, 1)`. -/
structure Draw where
  num : Nat
  den : Nat
  num_lt : num < den

/-- The value of `Math.floor(Math.random() * n)` for the draw `d`. -/
def Draw.floorMul (d : Draw) (n : Int) : Int :=
  (Int.ofNat d.num * n) / Int.ofNat d.den

/-- The test `Math.random() < p / q` for the draw `d`. -/
def Draw.below (d : Draw) (p q : Nat) : Bool :=
  decide (d.num * q < p * d.den)

/-! ## Data model -/

/-- One entry of `levelConfig`: `{min, max}` (the description string is dropped). -/
structure LevelEntry where
  min : Int
  max : Int
deriving DecidableEq, Repr

/-- The object `levelConfig`, as its list of (level, entry) properties. -/
abbrev LevelConfig := List (Nat × LevelEntry)

/-- The value `currentQuestion = {num1, num2, answer}`; it also serves as the
question key `num1+num2=answer`. -/
structure Question where
  num1 : Int
  num2 : Int
  answer : Int
deriving DecidableEq, Repr

/-- A body segment `{x, y}`; also used for `snake.direction`. -/
structure Segment where
  x : Int
  y : Int
deriving DecidableEq, Repr

/-- The object `snake`; `virtualLength` is `none` while the property is
undefined or `NaN` (both falsy). -/
structure Snake where
  body : List Segment
  direction : Segment
  virtualLength : Option Int
deriving DecidableEq, Repr

/-- The global game state of `game.js`.  `currentQuestion` is `none` for the
initial empty object.  `correctValue` and `wrongValue` are `correctBlock.value`
and `wrongBlock.value`.  `gameWinCalls` counts the calls of `gameWin`. -/
structure State where
  gameRunning : Bool
  currentLevel : Nat
  questionsInLevel : Nat
  totalQuestionsAnswered : Nat
  currentQuestion : Option Question
  usedQuestions : List Question
  selectedStartingNumber : Int
  levelConfig : LevelConfig
  canvasWidth : Int
  canvasHeight : Int
  snake : Snake
  correctValue : Int
  wrongValue : Int
  pendingGenerate : Nat
  pendingNextLevel : Nat
  gameWinCalls : Nat
deriving DecidableEq, Repr

/-- The result of running a function of the game on a state. -/
inductive Outcome where
  | done (s : State)
  | threw (s : State)
  | hang
deriving DecidableEq, Repr

/-- The global state that the next event sees, if there is one. -/
def Outcome.final : Outcome → Option State
  | .done s => some s
  | .threw s => some s
  | .hang => none

def questionsPerLevel : Nat := 10

def totalQuestions : Nat := 100

def gridSize : Int := 40

/-! ## Level configuration -/

/-- The loop of `generateLevelConfig`, for the levels `level .. level + n - 1`. -/
def generateLevelConfigFrom (startingNumber : Int) : Nat → Nat → LevelConfig
  | 0, _ => []
  | n + 1, level =>
    let min := startingNumber + ((Int.ofNat level - 1) * 10)
    let max := min + 10
    (level, { min := min, max := max }) :: generateLevelConfigFrom startingNumber n (level + 1)

/-- The function `generateLevelConfig(startingNumber)`: levels 1 to 10. -/
def generateLevelConfig (startingNumber : Int) : LevelConfig :=
  generateLevelConfigFrom startingNumber 10 1

/-- Property access `levelConfig[level]`; `none` is `undefined`. -/
def LevelConfig.get? (c : LevelConfig) (level : Nat) : Option LevelEntry :=
  (c.find? (fun p => p.1 == level)).map Prod.snd

/-! ## Question generation -/

/-- One pass through the body of the question loop of `generateQuestion`, up to
the construction of the key: the candidate question and the stream index after
the draws it made. -/
def genCandidate (config : LevelEntry) (currentLevel : Nat) (bodyLength : Nat)
    (rnd : Nat → Draw) (i : Nat) : Question × Nat :=
  let useSnakeLength := (rnd i).below 7 10
  if useSnakeLength then
    let num1 : Int := Int.ofNat bodyLength
    let num2 : Int :=
      if currentLevel = 1 then
        if num1 = 1 then (rnd (i + 1)).floorMul 3 + 1
        else if num1 ≤ 3 then (rnd (i + 1)).floorMul 3 + 1
        else (rnd (i + 1)).floorMul 4 + 1
      else
        let maxAddition := min 6 (config.max - num1)
        if maxAddition < 1 then (rnd (i + 1)).floorMul 3 + 1
        else (rnd (i + 1)).floorMul maxAddition + 1
    let correctAnswer := num1 + num2
    if correctAnswer > config.max then
      let num2 := config.max - num1
      if num2 < 1 then
        let num2 := (rnd (i + 2)).floorMul 3 + 1
        ({ num1 := num1, num2 := num2, answer := num1 + num2 }, i + 3)
      else
        ({ num1 := num1, num2 := num2, answer := num1 + num2 }, i + 2)
    else
      ({ num1 := num1, num2 := num2, answer := correctAnswer }, i + 2)
  else
    let num1 : Int := (rnd (i + 1)).floorMul (config.max - config.min + 1) + config.min
    let safeMax := max config.min (config.max - 5)
    let redraw := decide (num1 > safeMax)
    let num1 : Int :=
      if redraw then (rnd (i + 2)).floorMul (safeMax - config.min + 1) + config.min else num1
    let j := if redraw then i + 3 else i + 2
    let maxNum2 := min 6 (config.max - num1)
    let num2 := (rnd j).floorMul maxNum2 + 1
    let correctAnswer := num1 + num2
    if correctAnswer > config.max then
      ({ num1 := num1, num2 := config.max - num1, answer := config.max }, j + 1)
    else
      ({ num1 := num1, num2 := num2, answer := correctAnswer }, j + 1)

/-- What the question loop leaves behind: the accepted question, the final value
of `attempts`, the stream index, and the candidates of all iterations in order
(the last one is the accepted question). -/
structure LoopResult where
  question : Question
  attempts : Nat
  next : Nat
  candidates : List Question
deriving DecidableEq, Repr

/-- The `do … while (usedQuestions.has(questionKey))` loop of `generateQuestion`
with its `attempts > 50` exit.  `attempts` is the counter before the iteration,
`seen` the candidates of the iterations so far; `none` when the fuel runs out. -/
def questionLoop (config : LevelEntry) (currentLevel : Nat) (bodyLength : Nat)
    (used : List Question) (rnd : Nat → Draw) :
    Nat → Nat → Nat → List Question → Option LoopResult
  | 0, _, _, _ => none
  | fuel + 1, attempts, i, seen =>
    let attempts := attempts + 1
    let c := genCandidate config currentLevel bodyLength rnd i
    let seen := seen ++ [c.1]
    if attempts > 50 then
      some { question := c.1, attempts := attempts, next := c.2, candidates := seen }
    else if c.1 ∈ used then
      questionLoop config currentLevel bodyLength used rnd fuel attempts c.2 seen
    else
      some { question := c.1, attempts := attempts, next := c.2, candidates := seen }

/-- The call `strategy()` for the strategy at index `k` of
`wrongAnswerStrategies`, with the draw it consumes. -/
def wrongAnswerStrategy (k : Int) (config : LevelEntry) (q : Question) (d : Draw) : Int :=
  if k = 0 then q.answer + (d.floorMul 6 - 3)
  else if k = 1 then (if d.below 1 2 then q.answer + 1 else q.answer - 1)
  else if k = 2 then d.floorMul (config.max - config.min + 1) + config.min
  else if k = 3 then q.answer + (d.floorMul 16 - 8)
  else (if d.below 1 2 then q.num1 else q.num2)

/-- One pass through the body of the wrong-answer loop: the value of
`wrongAnswer` at the loop test and the stream index after the draws. -/
def wrongCandidate (k : Int) (config : LevelEntry) (q : Question)
    (rnd : Nat → Draw) (i : Nat) : Int × Nat :=
  let w := wrongAnswerStrategy k config q (rnd i)
  let low := decide (w < 1)
  let w := if low then (rnd (i + 1)).floorMul (min 10 q.answer) + 1 else w
  let j := if low then i + 2 else i + 1
  if w > config.max + 15 then
    (max 1 (q.answer - (rnd j).floorMul 5 - 1), j + 1)
  else
    (w, j)

/-- The `do … while (wrongAnswer === correctAnswer || wrongAnswer < 1)` loop;
`none` when the fuel runs out. -/
def wrongLoop (k : Int) (config : LevelEntry) (q : Question) (rnd : Nat → Draw) :
    Nat → Nat → Option (Int × Nat)
  | 0, _ => none
  | fuel + 1, i =>
    let c := wrongCandidate k config q rnd i
    if c.1 = q.answer ∨ c.1 < 1 then wrongLoop k config q rnd fuel c.2
    else some c

/-- The effect of `usedQuestions.add(questionKey)`. -/
def setAdd (used : List Question) (key : Question) : List Question :=
  if key ∈ used then used else used ++ [key]

/-- The writes of `generateQuestion` once both loops are over: the key is added
to `usedQuestions`, `currentQuestion` is replaced, and the two block values are
set. -/
def withQuestion (s : State) (q : Question) (wrongAnswer : Int) : State :=
  { s with usedQuestions := setAdd s.usedQuestions q, currentQuestion := some q,
           correctValue := q.answer, wrongValue := wrongAnswer }

/-- The function `generateQuestion()`.  Reading `config.max` of an undefined
`config` throws before any global is written.  The strategy is drawn once,
before the wrong-answer loop. -/
def generateQuestion (fuel : Nat) (rnd : Nat → Draw) (s : State) : Outcome :=
  match s.levelConfig.get? s.currentLevel with
  | none => .threw s
  | some config =>
    match questionLoop config s.currentLevel s.snake.body.length s.usedQuestions rnd fuel 0 0 [] with
    | none => .hang
    | some r =>
      let k := (rnd r.next).floorMul 5
      match wrongLoop k config r.question rnd fuel (r.next + 1) with
      | none => .hang
      | some w => .done (withQuestion s r.question w.1)

/-! ## The tick and the level progression -/

/-- The function `gameWin()`. -/
def gameWin (s : State) : State :=
  { s with gameRunning := false, gameWinCalls := s.gameWinCalls + 1 }

/-- The function `gameOver()`. -/
def gameOver (s : State) : State :=
  { s with gameRunning := false }

/-- The function `levelComplete()`: win at level 10 or above, else schedule
`nextLevel` with `setTimeout`. -/
def levelComplete (s : State) : State :=
  if s.currentLevel ≥ 10 then gameWin s
  else { s with pendingNextLevel := s.pendingNextLevel + 1 }

/-- The function `nextLevel()`. -/
def nextLevel (fuel : Nat) (rnd : Nat → Draw) (s : State) : Outcome :=
  generateQuestion fuel rnd
    { s with currentLevel := s.currentLevel + 1, questionsInLevel := 0 }

/-- The new head of `update`: the old head moved by the direction and wrapped
around the canvas walls. -/
def nextHead (s : State) (h : Segment) : Segment :=
  let x := h.x + s.snake.direction.x
  let y := h.y + s.snake.direction.y
  let x := if x < 0 then s.canvasWidth - gridSize else if x ≥ s.canvasWidth then 0 else x
  let y := if y < 0 then s.canvasHeight - gridSize else if y ≥ s.canvasHeight then 0 else y
  { x := x, y := y }

/-- The growth loop of `update`: up to `n` copies of the tail are pushed while
the body has fewer than 1000 segments. -/
def growBody : Nat → List Segment → List Segment
  | 0, body => body
  | n + 1, body =>
    if body.length < 1000 then
      match body.getLast? with
      | some tail => growBody n (body ++ [tail])
      | none => body
    else body

/-- The expression `snake.virtualLength || snake.body.length`. -/
def virtualOrBody (v : Option Int) (bodyLength : Nat) : Int :=
  match v with
  | some n => if n = 0 then Int.ofNat bodyLength else n
  | none => Int.ofNat bodyLength

/-- The branch of `update` for a collision with the correct block; `body` is the
body with the new head already in front. -/
def answerCorrect (s : State) (body : List Segment) : State :=
  let growthAmount := s.currentQuestion.map (fun q => q.num2)
  let virtualLength :=
    growthAmount.map (fun g => virtualOrBody s.snake.virtualLength body.length + g)
  let body := growBody ((growthAmount.getD 0).toNat) body
  let s1 := { s with snake := { s.snake with body := body, virtualLength := virtualLength },
                     questionsInLevel := s.questionsInLevel + 1,
                     totalQuestionsAnswered := s.totalQuestionsAnswered + 1 }
  if s1.questionsInLevel ≥ questionsPerLevel then levelComplete s1
  else { s1 with pendingGenerate := s1.pendingGenerate + 1 }

/-- The function `update()`; `hitCorrect` and `hitWrong` are the results of the
two calls of `isBlockCollision`.  Reading `snake.body[0].x` of an empty body
throws.  On a wrong answer the tail stays (the function returns before
`snake.body.pop()`). -/
def update (hitCorrect hitWrong : Bool) (s : State) : Outcome :=
  if !s.gameRunning then .done s
  else
    match s.snake.body with
    | [] => .threw s
    | h :: rest =>
      let body := nextHead s h :: h :: rest
      if hitCorrect then .done (answerCorrect s body)
      else if hitWrong then .done { s with snake := { s.snake with body := body } }
      else .done { s with snake := { s.snake with body := body.dropLast } }

/-! ## Start, restart and the other event handlers -/

/-- The segment loop of `init` and `restartGame`: segments `i .. i + n - 1`,
each one grid cell to the left of the previous one. -/
def buildBody (centerX centerY : Int) : Nat → Nat → List Segment
  | 0, _ => []
  | n + 1, i => { x := centerX - (Int.ofNat i * gridSize), y := centerY } :: buildBody centerX centerY n (i + 1)

/-- The function `setupCanvas()` for the window size `innerWidth × innerHeight`. -/
def setupCanvas (innerWidth innerHeight : Int) (s : State) : State :=
  { s with canvasWidth := (innerWidth - 20) / gridSize * gridSize,
           canvasHeight := (innerHeight - 100) / gridSize * gridSize }

/-- The snake that `init` and `restartGame` build; the direction is given by the
caller (`init` leaves it alone, `restartGame` resets it). -/
def freshSnake (s : State) (direction : Segment) : Snake :=
  let centerX := s.canvasWidth / 2 / gridSize * gridSize
  let centerY := s.canvasHeight / 2 / gridSize * gridSize
  let maxPhysicalSegments := min s.selectedStartingNumber 1000
  { body := buildBody centerX centerY maxPhysicalSegments.toNat 0,
    direction := direction,
    virtualLength := some s.selectedStartingNumber }

/-- The function `restartGame()`.  With no segment built, reading
`initialTail.x` throws before `generateQuestion` is called. -/
def restartGame (fuel : Nat) (rnd : Nat → Draw) (s : State) : Outcome :=
  let s1 := { s with gameRunning := true, currentLevel := 1, questionsInLevel := 0,
                     totalQuestionsAnswered := 0,
                     snake := freshSnake s { x := gridSize, y := 0 } }
  if s1.snake.body.isEmpty then .threw s1 else generateQuestion fuel rnd s1

/-- The function `changeStartingNumber()`, with the parsed dropdown value. -/
def changeStartingNumber (value : Int) (fuel : Nat) (rnd : Nat → Draw) (s : State) : Outcome :=
  restartGame fuel rnd
    { s with selectedStartingNumber := value, levelConfig := generateLevelConfig value,
             usedQuestions := [] }

/-- The values of the top-level declarations of `game.js`; the canvas size is
undefined until `setupCanvas` runs and is written as 0. -/
def moduleState : State :=
  { gameRunning := true, currentLevel := 1, questionsInLevel := 0,
    totalQuestionsAnswered := 0, currentQuestion := none, usedQuestions := [],
    selectedStartingNumber := 1, levelConfig := generateLevelConfig 1,
    canvasWidth := 0, canvasHeight := 0,
    snake := { body := [{ x := 300, y := 200 }], direction := { x := gridSize, y := 0 },
               virtualLength := none },
    correctValue := 2, wrongValue := 3,
    pendingGenerate := 0, pendingNextLevel := 0, gameWinCalls := 0 }

/-- The globals when `init` is about to read `initialTail.x`, in a window of the
given size: the canvas is set up and the snake is built from the module state. -/
def startState (innerWidth innerHeight : Int) : State :=
  let s0 := setupCanvas innerWidth innerHeight moduleState
  { s0 with snake := freshSnake s0 s0.snake.direction }

/-- The function `init()` up to its call of `generateQuestion`; the three
counters are set to 1, 0, 0 on the way. -/
def init (innerWidth innerHeight : Int) (fuel : Nat) (rnd : Nat → Draw) : Outcome :=
  let s1 := startState innerWidth innerHeight
  if s1.snake.body.isEmpty then .threw s1
  else generateQuestion fuel rnd
    { s1 with currentLevel := 1, questionsInLevel := 0, totalQuestionsAnswered := 0 }

/-- The resize listener installed by `init`. -/
def onResize (innerWidth innerHeight : Int) (fuel : Nat) (rnd : Nat → Draw) (s : State) : Outcome :=
  let s1 := setupCanvas innerWidth innerHeight s
  let clamp := fun (g : Segment) =>
    ({ x := min g.x (s1.canvasWidth - gridSize), y := min g.y (s1.canvasHeight - gridSize) } : Segment)
  generateQuestion fuel rnd { s1 with snake := { s1.snake with body := s1.snake.body.map clamp } }

/-- The four arrow keys (a swipe on the canvas has the same four effects). -/
inductive ArrowKey where
  | up
  | down
  | left
  | right
deriving DecidableEq, Repr

/-- The function `handleKeyPress(event)` for an arrow key. -/
def handleKeyPress (k : ArrowKey) (s : State) : State :=
  if !s.gameRunning then s
  else
    let d := s.snake.direction
    let turn := fun (n : Segment) => { s with snake := { s.snake with direction := n } }
    match k with
    | .up => if d.y = 0 then turn { x := 0, y := -gridSize } else s
    | .down => if d.y = 0 then turn { x := 0, y := gridSize } else s
    | .left => if d.x = 0 then turn { x := -gridSize, y := 0 } else s
    | .right => if d.x = 0 then turn { x := gridSize, y := 0 } else s

/-! ## The event system -/

/-- What can happen to the game after `init`: a tick of the game loop, a timer
callback coming due, or a user action. -/
inductive Event where
  | tick (hitCorrect hitWrong : Bool)
  | fireGenerate (rnd : Nat → Draw)
  | fireNextLevel (rnd : Nat → Draw)
  | restart (rnd : Nat → Draw)
  | changeStart (value : Int) (rnd : Nat → Draw)
  | key (k : ArrowKey)
  | resize (innerWidth innerHeight : Int) (rnd : Nat → Draw)
  | stop

/-- The run of one event; `none` when the event cannot happen in this state (a
timer callback that was never scheduled). -/
def Event.run (fuel : Nat) (s : State) : Event → Option Outcome
  | .tick hitCorrect hitWrong => some (update hitCorrect hitWrong s)
  | .fireGenerate rnd =>
    if s.pendingGenerate = 0 then none
    else some (generateQuestion fuel rnd { s with pendingGenerate := s.pendingGenerate - 1 })
  | .fireNextLevel rnd =>
    if s.pendingNextLevel = 0 then none
    else some (nextLevel fuel rnd { s with pendingNextLevel := s.pendingNextLevel - 1 })
  | .restart rnd => some (restartGame fuel rnd s)
  | .changeStart value rnd => some (changeStartingNumber value fuel rnd s)
  | .key k => some (.done (handleKeyPress k s))
  | .resize innerWidth innerHeight rnd => some (onResize innerWidth innerHeight fuel rnd s)
  | .stop => some (.done (gameOver s))

/-- The state after an event, when the event can happen and its handler returns
or throws. -/
def Event.next (fuel : Nat) (s : State) (e : Event) : Option State :=
  (e.run fuel s).bind Outcome.final

/-- The state after a list of events in order. -/
def runEvents (fuel : Nat) : List Event → State → Option State
  | [], s => some s
  | e :: es, s => (e.next fuel s).bind (runEvents fuel es)

/-- States the game can be in: after `init`, and after any further event. -/
inductive Reachable : State → Prop where
  | start (innerWidth innerHeight : Int) (fuel : Nat) (rnd : Nat → Draw) (s : State) :
      init innerWidth innerHeight fuel rnd = .done s → Reachable s
  | step (fuel : Nat) (e : Event) (s s' : State) :
      Reachable s → e.next fuel s = some s' → Reachable s'

/-- The fields that the progression invariants speak about: `gameRunning`,
`currentLevel`, `questionsInLevel`, `totalQuestionsAnswered` and the number of
pending `nextLevel` timers. -/
def State.progress (s : State) : Bool × Nat × Nat × Nat × Nat :=
  (s.gameRunning, s.currentLevel, s.questionsInLevel, s.totalQuestionsAnswered,
    s.pendingNextLevel)

/-- The counters agree, `totalQuestionsAnswered = (currentLevel - 1) * 10 +
questionsInLevel`, and the pending `nextLevel` timers fit the counters: none
pending in a running game means the level is not complete, and a pending timer
is the only one and belongs to a complete level. -/
def CountersInStep (s : State) : Prop :=
  s.totalQuestionsAnswered = (s.currentLevel - 1) * questionsPerLevel + s.questionsInLevel ∧
    1 ≤ s.currentLevel ∧
    (s.pendingNextLevel = 0 → s.gameRunning = true → s.questionsInLevel < questionsPerLevel) ∧
    (0 < s.pendingNextLevel → s.pendingNextLevel = 1 ∧ s.questionsInLevel = questionsPerLevel)

/-- Events that answer a question or reset the counters: a tick with the head on
the correct block, a restart, a change of the starting number. -/
def Event.answersOrResets : Event → Bool
  | .tick hitCorrect _ => hitCorrect
  | .restart _ => true
  | .changeStart _ _ => true
  | _ => false

/-- States the game reaches when no question is answered and no reset happens
while a `nextLevel` timer is pending. -/
inductive OrderlyReachable : State → Prop where
  | start (innerWidth innerHeight : Int) (fuel : Nat) (rnd : Nat → Draw) (s : State) :
      init innerWidth innerHeight fuel rnd = .done s → OrderlyReachable s
  | step (fuel : Nat) (e : Event) (s s' : State) :
      OrderlyReachable s → (e.answersOrResets = true → s.pendingNextLevel = 0) →
      e.next fuel s = some s' → OrderlyReachable s'

/-- The state after a list of events in which no question is answered and no
reset happens while a `nextLevel` timer is pending; `none` when the list breaks
that rule. -/
def runOrderly (fuel : Nat) : List Event → State → Option State
  | [], s => some s
  | e :: es, s =>
    if e.answersOrResets = true ∧ s.pendingNextLevel ≠ 0 then none
    else (e.next fuel s).bind (runOrderly fuel es)

/-- One correct answer in the regular schedule: a tick with the head on the
correct block, then the timer callback that this tick scheduled (`nextLevel` at
a level boundary, else `generateQuestion`; none once the game is won). -/
def correctAnswerRound (fuel : Nat) (rnd : Nat → Draw) (s : State) : Option State :=
  ((Event.tick true false).next fuel s).bind fun s1 =>
    if 0 < s1.pendingNextLevel then (Event.fireNextLevel rnd).next fuel s1
    else if 0 < s1.pendingGenerate then (Event.fireGenerate rnd).next fuel s1
    else some s1

/-- The state after `n` correct answers in a row; round `k` reads its draws from
`rnds k`. -/
def correctRun (fuel : Nat) (rnds : Nat → Nat → Draw) : Nat → State → Option State
  | 0, s => some s
  | n + 1, s => (correctRun fuel rnds n s).bind (correctAnswerRound fuel (rnds n))

/-- What the state looks like after `n ≤ 100` correct answers in the regular
schedule: no timer pending, the level and the counters determined by `n`, and
the game won exactly when `n = 100`. -/
def AfterCorrect (n : Nat) (s : State) : Prop :=
  s.totalQuestionsAnswered = n ∧ s.pendingNextLevel = 0 ∧ s.pendingGenerate = 0 ∧
    s.snake.body ≠ [] ∧
    (n < 100 → s.gameRunning = true ∧ s.currentLevel = n / 10 + 1 ∧
      s.questionsInLevel = n % 10 ∧ s.gameWinCalls = 0) ∧
    (n = 100 → s.gameRunning = false ∧ s.currentLevel = 10 ∧
      s.questionsInLevel = 10 ∧ s.gameWinCalls = 1)

/-- The progression invariant with the ranges: the counters agree and fit the
pending timers, the level is at most 10, `questionsInLevel` is at most 10, a
`nextLevel` timer is pending only below level 10, and `levelConfig` is the
configuration of the selected starting number. -/
def ProgressInRange (s : State) : Prop :=
  CountersInStep s ∧ s.currentLevel ≤ 10 ∧ s.questionsInLevel ≤ questionsPerLevel ∧
    (0 < s.pendingNextLevel → s.currentLevel < 10) ∧
    s.levelConfig = generateLevelConfig s.selectedStartingNumber

/-- The value of `num2` in snake-length mode of `generateQuestion` before the
check `correctAnswer > config.max`, for the snake length `num1` and the draw
`d`. -/
def snakeAddend (config : LevelEntry) (currentLevel : Nat) (num1 : Int) (d : Draw) : Int :=
  if currentLevel = 1 then
    if num1 = 1 then d.floorMul 3 + 1
    else if num1 ≤ 3 then d.floorMul 3 + 1
    else d.floorMul 4 + 1
  else
    let maxAddition := min 6 (config.max - num1)
    if maxAddition < 1 then d.floorMul 3 + 1
    else d.floorMul maxAddition + 1

/-! ## The collision test -/

/-- The constant `overlapThreshold = gridSize * 0.7` of `isBlockCollision`; the
double product `40 * 0.7` is exactly 28. -/
def overlapThreshold : ℚ := (gridSize : ℚ) * (7 / 10)

/-- The function `isBlockCollision(x1, y1, x2, y2)`, with the coordinates taken
as rationals and exact arithmetic. -/
def isBlockCollision (x1 y1 x2 y2 : ℚ) : Bool :=
  let distanceX := |x1 - x2|
  let distanceY := |y1 - y2|
  decide (distanceX < overlapThreshold) && decide (distanceY < overlapThreshold)

/-- The overlap of two blocks of width `gridSize` along one axis, in the words of
the claim on `isBlockCollision`: `gridSize` minus the absolute coordinate
difference. -/
def overlapAlongAxis (a b : ℚ) : ℚ := (gridSize : ℚ) - |a - b|

/-! ## Concrete inputs -/

/-- The draw `0`. -/
def zeroDraw : Draw := { num := 0, den := 1, num_lt := by decide }

/-- The draw `1 / 2`. -/
def halfDraw : Draw := { num := 1, den := 2, num_lt := by decide }

/-- The stream in which every draw is `0`. -/
def zeroDraws : Nat → Draw := fun _ => zeroDraw

/-- The stream `0, 0, 0, 1/2, 1/2, …`. -/
def stallDraws : Nat → Draw := fun i => if i < 3 then zeroDraw else halfDraw

/-- A game in progress on an 800 × 600 canvas: starting number `start`, the
given level, and a straight snake of `bodyLength` segments. -/
def playingState (start : Int) (level bodyLength : Nat) : State :=
  { moduleState with
    selectedStartingNumber := start, levelConfig := generateLevelConfig start,
    currentLevel := level, canvasWidth := 800, canvasHeight := 600,
    snake := { body := buildBody 400 280 bodyLength 0, direction := { x := gridSize, y := 0 },
               virtualLength := some (Int.ofNat bodyLength) } }

/-- Level 1, a snake of one segment, and the key 1+1=2 already used. -/
def repeatState : State :=
  { playingState 1 1 1 with usedQuestions := [{ num1 := 1, num2 := 1, answer := 2 }] }

/-- Level 2, a snake of 12 segments, and the key 1+1=2 already used. -/
def levelTwoState : State :=
  { playingState 1 2 12 with usedQuestions := [{ num1 := 1, num2 := 1, answer := 2 }] }

/-- The state after `init` in an 820 × 700 window when all draws are 0: the first
question is 1 + 1 = 2 with wrong answer 1. -/
def firstState : State :=
  withQuestion
    { startState 820 700 with currentLevel := 1, questionsInLevel := 0, totalQuestionsAnswered := 0 }
    { num1 := 1, num2 := 1, answer := 2 } 1

/-- The state after nine correct answers from `firstState`, all draws 0: level 1
with `questionsInLevel = 9`. -/
def nineAnswered : State :=
  (correctRun 1 (fun _ => zeroDraws) 9 firstState).getD firstState

/-- A correct answer followed by the `generateQuestion` callback it scheduled. -/
def answerThenQuestion : List Event :=
  [Event.tick true false, Event.fireGenerate zeroDraws]

/-- Ten correct answers at level 1; after the tenth the head goes round one grid
square (four ticks, 800 ms) and meets the correct block again before the
`nextLevel` timer (1500 ms) fires; then both `nextLevel` timers fire. -/
def earlyAnswerEvents : List Event :=
  (List.replicate 9 answerThenQuestion).flatten ++
    [Event.tick true false,
     Event.key ArrowKey.up, Event.tick false false,
     Event.key ArrowKey.left, Event.tick false false,
     Event.key ArrowKey.down, Event.tick false false,
     Event.key ArrowKey.right, Event.tick true false,
     Event.fireNextLevel zeroDraws, Event.fireNextLevel zeroDraws]

/-- Ten correct answers at level 1, each followed by the callback it scheduled;
the last callback is `nextLevel`. -/
def levelUpEvents : List Event :=
  (List.replicate 9 answerThenQuestion).flatten ++
    [Event.tick true false, Event.fireNextLevel zeroDraws]

/-- The state after `levelUpEvents` from `firstState`: level 2, no question of
the level answered yet. -/
def levelUpState : State :=
  (runOrderly 51 levelUpEvents firstState).getD firstState

/-- Ten correct answers at level 1 and an eleventh one after the head has gone
round one grid square, with the `nextLevel` timer of the tenth still pending:
`earlyAnswerEvents` without the two timer callbacks at its end. -/
def elevenAnswers : List Event :=
  (List.replicate 9 answerThenQuestion).flatten ++
    [Event.tick true false,
     Event.key ArrowKey.up, Event.tick false false,
     Event.key ArrowKey.left, Event.tick false false,
     Event.key ArrowKey.down, Event.tick false false,
     Event.key ArrowKey.right, Event.tick true false]

/-- A game at level 3 with `questionsInLevel = 5`, starting number 1, a snake of
25 segments and one key in the history. -/
def midGameState : State :=
  { playingState 1 3 25 with
    questionsInLevel := 5, totalQuestionsAnswered := 25,
    currentQuestion := some { num1 := 24, num2 := 1, answer := 25 },
    usedQuestions := [{ num1 := 24, num2 := 1, answer := 25 }],
    correctValue := 25, wrongValue := 22 }

/-- The state after the starting number is changed to 21 in `midGameState`, all
draws 0. -/
def changedState : State :=
  (changeStartingNumber 21 1 zeroDraws midGameState).final.getD midGameState

/-- The state after `restartGame` in `midGameState`, all draws 0. -/
def restartedState : State :=
  (restartGame 1 zeroDraws midGameState).final.getD midGameState

/-- The state after 100 correct answers from `firstState` in the regular
schedule, all draws 0: the game is won. -/
def wonState : State :=
  (correctRun 51 (fun _ => zeroDraws) 100 firstState).getD firstState

/-- The state after the starting number is changed to 1000 in `firstState`, all
draws 0: a snake of 1000 segments. -/
def thousandState : State :=
  ((Event.changeStart 1000 zeroDraws).next 51 firstState).getD firstState

/-- The draw `3 / 4`. -/
def highDraw : Draw := { num := 3, den := 4, num_lt := by decide }

/-- The stream in which every draw is `3 / 4`: random-number mode. -/
def highDraws : Nat → Draw := fun _ => highDraw

/-! ## Lemmas on draws and on the two loops -/

theorem eq_some_getD {α : Type} (o : Option α) (d : α) (h : o.isSome = true) :
    o = some (o.getD d) := by
  cases o with
  | none => simp at h
  | some a => rfl

theorem Draw.floorMul_nonneg (d : Draw) (n : Int) (hn : 0 ≤ n) : 0 ≤ d.floorMul n := by
  unfold Draw.floorMul
  exact Int.ediv_nonneg (mul_nonneg (Int.ofNat_nonneg _) hn) (Int.ofNat_nonneg _)

theorem Draw.floorMul_lt (d : Draw) (n : Int) (hn : 0 < n) : d.floorMul n < n := by
  unfold Draw.floorMul
  have hd : (0 : Int) < Int.ofNat d.den := by
    have := d.num_lt
    simp only [Int.ofNat_eq_coe]; omega
  apply Int.ediv_lt_of_lt_mul hd
  have h1 : (Int.ofNat d.num) < Int.ofNat d.den := by
    have := d.num_lt
    simp only [Int.ofNat_eq_coe]; omega
  calc Int.ofNat d.num * n < Int.ofNat d.den * n := mul_lt_mul_of_pos_right h1 hn
    _ = n * Int.ofNat d.den := mul_comm _ _

theorem genCandidate_answer_range (c : LevelEntry) (lvl len : Nat) (rnd : Nat → Draw) (i : Nat)
    (hw : c.max = c.min + 10) (hlo : c.min - 1 ≤ Int.ofNat len) (hhi : Int.ofNat len < c.max) :
    c.min ≤ (genCandidate c lvl len rnd i).1.answer ∧ (genCandidate c lvl len rnd i).1.answer ≤ c.max := by
  have a3 := (rnd (i+1)).floorMul_nonneg 3 (by norm_num)
  have b3 := (rnd (i+1)).floorMul_lt 3 (by norm_num)
  have a4 := (rnd (i+1)).floorMul_nonneg 4 (by norm_num)
  have b4 := (rnd (i+1)).floorMul_lt 4 (by norm_num)
  have c3 := (rnd (i+2)).floorMul_nonneg 3 (by norm_num)
  have d3 := (rnd (i+2)).floorMul_lt 3 (by norm_num)
  unfold genCandidate
  simp only []
  split_ifs <;> simp only [] <;> first | omega | skip
  · have hm : 0 < min 6 (c.max - Int.ofNat len) := by omega
    have := (rnd (i+1)).floorMul_nonneg _ hm.le
    have := (rnd (i+1)).floorMul_lt _ hm
    omega
  · have h1 : 0 < max c.min (c.max - 5) - c.min + 1 := by omega
    have e1 := (rnd (i+2)).floorMul_nonneg _ h1.le
    have e2 := (rnd (i+2)).floorMul_lt _ h1
    generalize (rnd (i+2)).floorMul (max c.min (c.max - 5) - c.min + 1) = a at *
    have h2 : 0 < min 6 (c.max - (a + c.min)) := by omega
    have e3 := (rnd (i+3)).floorMul_nonneg _ h2.le
    have e4 := (rnd (i+3)).floorMul_lt _ h2
    omega
  · rename_i hns hnd hgt
    have h1 : 0 < c.max - c.min + 1 := by omega
    have e1 := (rnd (i+1)).floorMul_nonneg _ h1.le
    have e2 := (rnd (i+1)).floorMul_lt _ h1
    generalize (rnd (i+1)).floorMul (c.max - c.min + 1) = a at *
    simp only [gt_iff_lt, decide_eq_true_eq, not_lt] at hnd
    have h2 : 0 < min 6 (c.max - (a + c.min)) := by omega
    have e3 := (rnd (i+2)).floorMul_nonneg _ h2.le
    have e4 := (rnd (i+2)).floorMul_lt _ h2
    omega

theorem questionLoop_spec (c : LevelEntry) (lvl len : Nat) (used : List Question)
    (rnd : Nat → Draw) (fuel : Nat) :
    ∀ (a i : Nat) (seen : List Question) (r : LoopResult),
      questionLoop c lvl len used rnd fuel a i seen = some r →
      ∃ extra : List Question,
        r.candidates = seen ++ extra ∧ extra.length + a = r.attempts ∧
        extra.getLast? = some r.question ∧ r.attempts ≤ max 51 (a + 1) ∧
        (∀ x ∈ extra.dropLast, x ∈ used) ∧
        (r.question ∈ used → 50 < r.attempts) ∧
        (∀ x ∈ extra, ∃ j, x = (genCandidate c lvl len rnd j).1) := by
  induction fuel with
  | zero => intro a i seen r h; simp [questionLoop] at h
  | succ n ih =>
    intro a i seen r h
    simp only [questionLoop] at h
    split_ifs at h with h50 hmem
    · simp only [Option.some.injEq] at h
      subst h
      refine ⟨[(genCandidate c lvl len rnd i).1], rfl, ?_, rfl, ?_, ?_, ?_, ?_⟩
      · simp; omega
      · simp
      · simp
      · intro _; exact h50
      · intro x hx; simp at hx; exact ⟨i, hx⟩
    · obtain ⟨extra, h1, h2, h3, h4, h5, h6, h7⟩ := ih _ _ _ _ h
      refine ⟨(genCandidate c lvl len rnd i).1 :: extra, ?_, ?_, ?_, ?_, ?_, h6, ?_⟩
      · simp [h1]
      · simp; omega
      · cases extra with
        | nil => simp at h3
        | cons y ys => simpa [List.getLast?_cons_cons] using h3
      · omega
      · cases extra with
        | nil => simp at h3
        | cons y ys =>
          intro x hx
          simp only [List.dropLast_cons₂, List.mem_cons] at hx
          rcases hx with hx | hx
          · subst hx; exact hmem
          · exact h5 x hx
      · intro x hx
        simp only [List.mem_cons] at hx
        rcases hx with hx | hx
        · exact ⟨i, hx⟩
        · exact h7 x hx
    · simp only [Option.some.injEq] at h
      subst h
      refine ⟨[(genCandidate c lvl len rnd i).1], rfl, ?_, rfl, ?_, ?_, ?_, ?_⟩
      · simp; omega
      · simp
      · simp
      · intro hq; exact absurd hq hmem
      · intro x hx; simp at hx; exact ⟨i, hx⟩

theorem questionLoop_isSome (c : LevelEntry) (lvl len : Nat) (used : List Question)
    (rnd : Nat → Draw) (fuel : Nat) :
    ∀ (a i : Nat) (seen : List Question), 0 < fuel → 51 ≤ fuel + a →
      ∃ r, questionLoop c lvl len used rnd fuel a i seen = some r := by
  induction fuel with
  | zero => intro a i seen h; omega
  | succ n ih =>
    intro a i seen _ h
    simp only [questionLoop]
    split_ifs with h50 hmem
    · exact ⟨_, rfl⟩
    · exact ih _ _ _ (by omega) (by omega)
    · exact ⟨_, rfl⟩

theorem wrongLoop_spec (k : Int) (c : LevelEntry) (q : Question) (rnd : Nat → Draw) (fuel : Nat) :
    ∀ (i : Nat) (w : Int × Nat), wrongLoop k c q rnd fuel i = some w →
      w.1 ≠ q.answer ∧ 1 ≤ w.1 := by
  induction fuel with
  | zero => intro i w h; simp [wrongLoop] at h
  | succ n ih =>
    intro i w h
    simp only [wrongLoop] at h
    split_ifs at h with hc
    · exact ih _ _ h
    · simp only [Option.some.injEq] at h
      subst h
      constructor
      · intro he; exact hc (Or.inl he)
      · by_contra hlt; exact hc (Or.inr (by omega))

theorem generateQuestion_done (fuel : Nat) (rnd : Nat → Draw) (s s' : State)
    (h : generateQuestion fuel rnd s = .done s') :
    ∃ (c : LevelEntry) (r : LoopResult) (w : Int × Nat),
      s.levelConfig.get? s.currentLevel = some c ∧
      questionLoop c s.currentLevel s.snake.body.length s.usedQuestions rnd fuel 0 0 [] = some r ∧
      wrongLoop ((rnd r.next).floorMul 5) c r.question rnd fuel (r.next + 1) = some w ∧
      s' = withQuestion s r.question w.1 := by
  unfold generateQuestion at h
  split at h
  · simp at h
  · rename_i c hc
    split at h
    · simp at h
    · rename_i r hr
      simp only [] at h
      split at h
      · simp at h
      · rename_i w hw
        simp only [Outcome.done.injEq] at h
        exact ⟨c, r, w, hc, hr, hw, h.symm⟩

theorem generateQuestion_hang_of_wrongLoop (fuel : Nat) (rnd : Nat → Draw) (s : State)
    (c : LevelEntry) (r : LoopResult)
    (hc : s.levelConfig.get? s.currentLevel = some c)
    (hr : questionLoop c s.currentLevel s.snake.body.length s.usedQuestions rnd fuel 0 0 [] = some r)
    (hw : wrongLoop ((rnd r.next).floorMul 5) c r.question rnd fuel (r.next + 1) = none) :
    generateQuestion fuel rnd s = .hang := by
  unfold generateQuestion
  simp only [hc, hr, hw]

/-! ## Question generation: the claims -/

theorem LevelConfig.get?_cons (l : Nat) (e : LevelEntry) (rest : LevelConfig) (level : Nat) :
    LevelConfig.get? ((l, e) :: rest) level = if l = level then some e else LevelConfig.get? rest level := by
  unfold LevelConfig.get?
  by_cases h : l = level
  · simp [List.find?, h]
  · have hb : (l == level) = false := by simpa using h
    simp [List.find?, hb, h]

theorem generateLevelConfigFrom_get? (start : Int) (n : Nat) :
    ∀ (first level : Nat) (c : LevelEntry),
      LevelConfig.get? (generateLevelConfigFrom start n first) level = some c →
      c = { min := start + (Int.ofNat level - 1) * 10, max := start + (Int.ofNat level - 1) * 10 + 10 } := by
  induction n with
  | zero => intro first level c h; simp [generateLevelConfigFrom, LevelConfig.get?] at h
  | succ m ih =>
    intro first level c h
    simp only [generateLevelConfigFrom] at h
    rw [LevelConfig.get?_cons] at h
    split_ifs at h with he
    · subst he
      simp only [Option.some.injEq] at h
      exact h.symm
    · exact ih _ _ _ h

theorem generateLevelConfig_get? (start : Int) (level : Nat) (c : LevelEntry)
    (h : LevelConfig.get? (generateLevelConfig start) level = some c) :
    c = { min := start + (Int.ofNat level - 1) * 10, max := start + (Int.ofNat level - 1) * 10 + 10 } :=
  generateLevelConfigFrom_get? start 10 1 level c h

theorem setAdd_mem (used : List Question) (key k : Question) :
    k ∈ setAdd used key ↔ (k ∈ used ∨ k = key) := by
  unfold setAdd
  split_ifs with h
  · constructor
    · intro hk; exact Or.inl hk
    · rintro (hk | hk)
      · exact hk
      · subst hk; exact h
  · simp

/-- C1, failing input: the page loads with starting number 1 and every draw is
0.  Five correct answers, each followed by the `generateQuestion` callback it
scheduled, leave the game at level 1 (range 1 to 11) with a virtual length of
1 + 5 = 6 and a body of 11 segments (every correct answer keeps the new head and
adds `num2 = 1` tail segments).  `generateQuestion` takes `num1` from the body,
and its guard "Make sure answer doesn't exceed level range" lets the question
11 + 1 = 12 through, above the maximum 11 of level 1. -/
theorem sum_above_level_max :
    ∃ (s : State) (c : LevelEntry) (q : Question),
      init 820 700 1 zeroDraws = .done firstState ∧
      runEvents 1 (List.replicate 5 answerThenQuestion).flatten firstState = some s ∧
      s.levelConfig = generateLevelConfig 1 ∧ s.currentLevel = 1 ∧
      s.levelConfig.get? s.currentLevel = some c ∧ s.snake.body.length = 11 ∧
      s.snake.virtualLength = some 6 ∧
      s.currentQuestion = some q ∧ q = { num1 := 11, num2 := 1, answer := 12 } ∧
      c.max = 11 ∧ c.max < q.answer := by
  refine ⟨_, { min := 1, max := 11 }, { num1 := 11, num2 := 1, answer := 12 }, by decide,
    eq_some_getD _ firstState (by decide), ?_⟩
  decide

/-- C2: whenever `generateQuestion` returns, `wrongBlock.value` differs from
`correctBlock.value`, is at least 1, and `correctBlock.value` is the answer of
the new current question. -/
theorem wrong_answer_differs (fuel : Nat) (rnd : Nat → Draw) (s s' : State)
    (hrun : generateQuestion fuel rnd s = .done s') :
    s'.wrongValue ≠ s'.correctValue ∧ 1 ≤ s'.wrongValue ∧
      s'.currentQuestion.map (fun q => q.answer) = some s'.correctValue := by
  obtain ⟨c, r, w, _, _, hw, hs'⟩ := generateQuestion_done fuel rnd s s' hrun
  have := wrongLoop_spec _ _ _ _ _ _ _ hw
  subst hs'
  exact ⟨this.1, this.2, rfl⟩

/-- C2, witness: level 3 with starting number 21 and a snake of 45 segments, all
draws 1/2; the question is 45 + 4 = 49 and the wrong answer 46. -/
theorem wrong_answer_differs_witness :
    generateQuestion 2 (fun _ => halfDraw) (playingState 21 3 45)
        = .done (withQuestion (playingState 21 3 45) { num1 := 45, num2 := 4, answer := 49 } 46) ∧
      (withQuestion (playingState 21 3 45) { num1 := 45, num2 := 4, answer := 49 } 46).wrongValue = 46 ∧
      (withQuestion (playingState 21 3 45) { num1 := 45, num2 := 4, answer := 49 } 46).correctValue = 49 ∧
      ((withQuestion (playingState 21 3 45) { num1 := 45, num2 := 4, answer := 49 } 46).wrongValue
          ≠ (withQuestion (playingState 21 3 45) { num1 := 45, num2 := 4, answer := 49 } 46).correctValue ∧
        1 ≤ (withQuestion (playingState 21 3 45) { num1 := 45, num2 := 4, answer := 49 } 46).wrongValue ∧
        (withQuestion (playingState 21 3 45) { num1 := 45, num2 := 4, answer := 49 } 46).currentQuestion.map
            (fun q => q.answer)
          = some (withQuestion (playingState 21 3 45) { num1 := 45, num2 := 4, answer := 49 } 46).correctValue) :=
  ⟨by decide, rfl, rfl,
    wrong_answer_differs 2 (fun _ => halfDraw) (playingState 21 3 45) _ (by decide)⟩

/-- The wrong-answer loop never ends on the stream `stallDraws`: strategy 1 adds
`floor(0.5 * 6) - 3 = 0` to the answer in every iteration. -/
theorem wrongLoop_stall (c : LevelEntry) (q : Question) (h1 : 1 ≤ q.answer)
    (h2 : q.answer ≤ c.max + 15) (fuel : Nat) :
    ∀ i, 3 ≤ i → wrongLoop 0 c q stallDraws fuel i = none := by
  induction fuel with
  | zero => intro i _; rfl
  | succ n ih =>
    intro i hi
    have hd : stallDraws i = halfDraw := by
      unfold stallDraws
      rw [if_neg (by omega)]
    have hf : halfDraw.floorMul 6 = 3 := by decide
    have hw : wrongAnswerStrategy 0 c q (stallDraws i) = q.answer := by
      unfold wrongAnswerStrategy
      rw [if_pos rfl, hd, hf]
      omega
    have hc : wrongCandidate 0 c q stallDraws i = (q.answer, i + 1) := by
      have hlow : decide (q.answer < 1) = false := by simp; omega
      have hhi : ¬ (q.answer > c.max + 15) := by omega
      simp [wrongCandidate, hw, hlow, hhi]
    unfold wrongLoop
    simp only [hc]
    rw [if_pos (Or.inl trivial)]
    exact ih _ (by omega)

theorem init_eq_generateQuestion (innerWidth innerHeight : Int) (fuel : Nat) (rnd : Nat → Draw) :
    init innerWidth innerHeight fuel rnd =
      generateQuestion fuel rnd
        { startState innerWidth innerHeight with
          currentLevel := 1, questionsInLevel := 0, totalQuestionsAnswered := 0 } := by
  rfl

/-- C3, failing input: the page loads in an 820 × 700 window and the draws are
0, 0, 0, 1/2, 1/2, …  With any fuel the question loop accepts 1 + 1 = 2 on its
first attempt; strategy 1 is chosen; the wrong-answer loop computes
`2 + (floor(0.5 * 6) - 3) = 2`, the correct answer, in every iteration and does
not end within any number of iterations; so `init` does not return. -/
theorem init_wrong_answer_loop_unbounded :
    ∀ fuel : Nat,
      questionLoop { min := 1, max := 11 } 1 1 [] stallDraws (fuel + 1) 0 0 []
        = some { question := { num1 := 1, num2 := 1, answer := 2 }, attempts := 1, next := 2,
                 candidates := [{ num1 := 1, num2 := 1, answer := 2 }] } ∧
      (stallDraws 2).floorMul 5 = 0 ∧
      wrongLoop 0 { min := 1, max := 11 } { num1 := 1, num2 := 1, answer := 2 } stallDraws fuel 3
        = none ∧
      init 820 700 fuel stallDraws = .hang := by
  intro fuel
  have hw := wrongLoop_stall { min := 1, max := 11 } { num1 := 1, num2 := 1, answer := 2 }
    (by decide) (by decide)
  refine ⟨rfl, by decide, hw fuel 3 (le_refl 3), ?_⟩
  cases fuel with
  | zero => rfl
  | succ n =>
    rw [init_eq_generateQuestion]
    exact generateQuestion_hang_of_wrongLoop _ _ _ { min := 1, max := 11 }
      { question := { num1 := 1, num2 := 1, answer := 2 }, attempts := 1, next := 2,
        candidates := [{ num1 := 1, num2 := 1, answer := 2 }] } rfl rfl (hw (n + 1) 3 (le_refl 3))

/-- C4: when the question that `generateQuestion` returns has a key that was in
`usedQuestions` before the call, the loop made more than 50 attempts (exactly
51) and each of its first 50 candidates had a key in `usedQuestions`; a call
that stops within 50 attempts returns a key that was not in `usedQuestions`. -/
theorem duplicate_only_after_fifty_attempts (fuel : Nat) (rnd : Nat → Draw) (s s' : State)
    (hrun : generateQuestion fuel rnd s = .done s') :
    ∃ (c : LevelEntry) (r : LoopResult),
      s.levelConfig.get? s.currentLevel = some c ∧
      questionLoop c s.currentLevel s.snake.body.length s.usedQuestions rnd fuel 0 0 [] = some r ∧
      s'.currentQuestion = some r.question ∧
      r.candidates.length = r.attempts ∧
      r.candidates.getLast? = some r.question ∧
      (r.question ∈ s.usedQuestions →
        50 < r.attempts ∧ r.attempts = 51 ∧ ∀ x ∈ r.candidates.take 50, x ∈ s.usedQuestions) ∧
      (r.attempts ≤ 50 → r.question ∉ s.usedQuestions) := by
  obtain ⟨c, r, w, hc, hr, _, hs'⟩ := generateQuestion_done fuel rnd s s' hrun
  obtain ⟨extra, h1, h2, h3, h4, h5, h6, _⟩ := questionLoop_spec _ _ _ _ _ _ _ _ _ _ hr
  simp only [List.nil_append] at h1
  rw [← h1] at h2 h3 h5
  refine ⟨c, r, hc, hr, by rw [hs']; rfl, by omega, h3, ?_, ?_⟩
  · intro hq
    have h50 := h6 hq
    have h51 : r.attempts = 51 := by
      have : r.attempts ≤ max 51 (0 + 1) := h4
      simp at this
      omega
    refine ⟨h50, h51, ?_⟩
    have hd : r.candidates.take 50 = r.candidates.dropLast := by
      rw [List.dropLast_eq_take]
      congr 1
      omega
    rw [hd]
    exact h5
  · intro hle hq
    have := h6 hq
    omega

/-- C4, witness: level 1, a snake of one segment, all draws 0, and the key
1+1=2 already used: the same candidate comes 51 times and is then accepted. -/
theorem duplicate_only_after_fifty_attempts_witness :
    generateQuestion 51 zeroDraws repeatState
      = .done (withQuestion repeatState { num1 := 1, num2 := 1, answer := 2 } 1) ∧
    ∃ (c : LevelEntry) (r : LoopResult),
      repeatState.levelConfig.get? repeatState.currentLevel = some c ∧
      questionLoop c repeatState.currentLevel repeatState.snake.body.length
        repeatState.usedQuestions zeroDraws 51 0 0 [] = some r ∧
      (withQuestion repeatState { num1 := 1, num2 := 1, answer := 2 } 1).currentQuestion = some r.question ∧
      r.candidates.length = r.attempts ∧
      r.candidates.getLast? = some r.question ∧
      (r.question ∈ repeatState.usedQuestions →
        50 < r.attempts ∧ r.attempts = 51 ∧
          ∀ x ∈ r.candidates.take 50, x ∈ repeatState.usedQuestions) ∧
      (r.attempts ≤ 50 → r.question ∉ repeatState.usedQuestions) :=
  ⟨by decide,
    duplicate_only_after_fifty_attempts 51 zeroDraws repeatState
      (withQuestion repeatState { num1 := 1, num2 := 1, answer := 2 } 1) (by decide)⟩

/-- C5: after `generateQuestion` returns, `usedQuestions` holds exactly the keys
it held before together with the key of the new `currentQuestion`; no key is
lost. -/
theorem generateQuestion_records_key (fuel : Nat) (rnd : Nat → Draw) (s s' : State)
    (hrun : generateQuestion fuel rnd s = .done s') :
    ∃ q, s'.currentQuestion = some q ∧
      (∀ k, k ∈ s'.usedQuestions ↔ (k ∈ s.usedQuestions ∨ k = q)) ∧
      (∀ k, k ∈ s.usedQuestions → k ∈ s'.usedQuestions) := by
  obtain ⟨c, r, w, _, _, _, hs'⟩ := generateQuestion_done fuel rnd s s' hrun
  subst hs'
  refine ⟨r.question, rfl, ?_, ?_⟩
  · intro k; exact setAdd_mem _ _ _
  · intro k hk; exact (setAdd_mem _ _ _).2 (Or.inl hk)

/-- C5, witness: level 2 with starting number 1, a snake of 12 segments, the key
1+1=2 in the history, all draws 0: the key 12+1=13 is added. -/
theorem generateQuestion_records_key_witness :
    generateQuestion 1 zeroDraws levelTwoState
      = .done (withQuestion levelTwoState { num1 := 12, num2 := 1, answer := 13 } 10) ∧
    ∃ q, (withQuestion levelTwoState { num1 := 12, num2 := 1, answer := 13 } 10).currentQuestion = some q ∧
      (∀ k, k ∈ (withQuestion levelTwoState { num1 := 12, num2 := 1, answer := 13 } 10).usedQuestions ↔
        (k ∈ levelTwoState.usedQuestions ∨ k = q)) ∧
      (∀ k, k ∈ levelTwoState.usedQuestions →
        k ∈ (withQuestion levelTwoState { num1 := 12, num2 := 1, answer := 13 } 10).usedQuestions) :=
  ⟨by decide,
    generateQuestion_records_key 1 zeroDraws levelTwoState
      (withQuestion levelTwoState { num1 := 12, num2 := 1, answer := 13 } 10) (by decide)⟩


/-! ## Lemmas on the tick and on the frame of `generateQuestion` -/

theorem generateQuestion_final (fuel : Nat) (rnd : Nat → Draw) (s s' : State)
    (h : (generateQuestion fuel rnd s).final = some s') :
    s' = s ∨ ∃ q w, s' = withQuestion s q w := by
  unfold generateQuestion at h
  split at h
  · left; simpa [Outcome.final] using h.symm
  · split at h
    · simp [Outcome.final] at h
    · simp only [] at h
      split at h
      · simp [Outcome.final] at h
      · right; exact ⟨_, _, by simpa [Outcome.final] using h.symm⟩

/-- The part of the state that `generateQuestion` does not write. -/
theorem generateQuestion_frame (fuel : Nat) (rnd : Nat → Draw) (s s' : State)
    (h : (generateQuestion fuel rnd s).final = some s') :
    s'.gameRunning = s.gameRunning ∧ s'.currentLevel = s.currentLevel ∧
      s'.questionsInLevel = s.questionsInLevel ∧
      s'.totalQuestionsAnswered = s.totalQuestionsAnswered ∧
      s'.pendingGenerate = s.pendingGenerate ∧ s'.pendingNextLevel = s.pendingNextLevel ∧
      s'.gameWinCalls = s.gameWinCalls ∧ s'.snake = s.snake ∧ s'.levelConfig = s.levelConfig := by
  rcases generateQuestion_final fuel rnd s s' h with h | ⟨q, w, h⟩ <;> subst h <;>
    simp [withQuestion]

theorem growBody_ne_nil (n : Nat) : ∀ body : List Segment, body ≠ [] → growBody n body ≠ [] := by
  induction n with
  | zero => intro body h; simpa [growBody] using h
  | succ m ih =>
    intro body h
    unfold growBody
    split_ifs
    · split
      · apply ih; simp
      · exact h
    · exact h

theorem update_hit_eq (hitWrong : Bool) (s : State) (hrun : s.gameRunning = true)
    (h : Segment) (rest : List Segment) (hb : s.snake.body = h :: rest) :
    update true hitWrong s = .done (answerCorrect s (nextHead s h :: h :: rest)) := by
  unfold update
  simp only [hrun, Bool.not_true, Bool.false_eq_true, if_false]
  split
  · rename_i he; rw [hb] at he; cases he
  · rename_i h' rest' he
    rw [hb] at he
    cases he
    rfl

theorem update_stopped (hitCorrect hitWrong : Bool) (s : State) (hrun : s.gameRunning = false) :
    update hitCorrect hitWrong s = .done s := by
  unfold update
  simp [hrun]

theorem update_headless (hitCorrect hitWrong : Bool) (s : State) (hrun : s.gameRunning = true)
    (hb : s.snake.body = []) :
    update hitCorrect hitWrong s = .threw s := by
  unfold update
  simp only [hrun, Bool.not_true, Bool.false_eq_true, if_false]
  split
  · rfl
  · rename_i he; rw [hb] at he; cases he

theorem update_miss_eq (hitWrong : Bool) (s : State) (hrun : s.gameRunning = true)
    (h : Segment) (rest : List Segment) (hb : s.snake.body = h :: rest) :
    update false hitWrong s = .done { s with snake := { s.snake with
      body := if hitWrong then nextHead s h :: h :: rest
              else (nextHead s h :: h :: rest).dropLast } } := by
  unfold update
  simp only [hrun, Bool.not_true, Bool.false_eq_true, if_false]
  split
  · rename_i he; rw [hb] at he; cases he
  · rename_i h' rest' he
    rw [hb] at he
    cases he
    cases hitWrong <;> rfl

/-- A tick without the head on the correct block writes nothing but the body. -/
theorem update_miss (hitWrong : Bool) (s s' : State)
    (h : (update false hitWrong s).final = some s') :
    ∃ body, s' = { s with snake := { s.snake with body := body } } := by
  by_cases hr : s.gameRunning = true
  · by_cases hb : s.snake.body = []
    · rw [update_headless _ _ s hr hb] at h
      simp only [Outcome.final, Option.some.injEq] at h
      exact ⟨s.snake.body, h.symm⟩
    · obtain ⟨x, rest, hx⟩ := List.exists_cons_of_ne_nil hb
      rw [update_miss_eq _ s hr x rest hx] at h
      simp only [Outcome.final, Option.some.injEq] at h
      exact ⟨_, h.symm⟩
  · rw [update_stopped _ _ s (by simpa using hr)] at h
    simp only [Outcome.final, Option.some.injEq] at h
    exact ⟨s.snake.body, h.symm⟩

/-- The state after the branch for a correct answer. -/
theorem answerCorrect_fields (s : State) (body : List Segment) (hbody : body ≠ []) :
    (answerCorrect s body).questionsInLevel = s.questionsInLevel + 1 ∧
      (answerCorrect s body).totalQuestionsAnswered = s.totalQuestionsAnswered + 1 ∧
      (answerCorrect s body).currentLevel = s.currentLevel ∧
      (answerCorrect s body).currentQuestion = s.currentQuestion ∧
      (answerCorrect s body).usedQuestions = s.usedQuestions ∧
      (answerCorrect s body).levelConfig = s.levelConfig ∧
      (answerCorrect s body).snake.body ≠ [] ∧
      (answerCorrect s body).snake.virtualLength = s.currentQuestion.map (fun q =>
        virtualOrBody s.snake.virtualLength body.length + q.num2) := by
  unfold answerCorrect levelComplete gameWin
  simp only []
  cases s.currentQuestion <;> split_ifs <;> simp [growBody_ne_nil, hbody]

/-- The level boundary in the branch for a correct answer. -/
theorem answerCorrect_progress (s : State) (body : List Segment) :
    (questionsPerLevel ≤ s.questionsInLevel + 1 → 10 ≤ s.currentLevel →
        (answerCorrect s body).gameRunning = false ∧
        (answerCorrect s body).gameWinCalls = s.gameWinCalls + 1 ∧
        (answerCorrect s body).pendingNextLevel = s.pendingNextLevel ∧
        (answerCorrect s body).pendingGenerate = s.pendingGenerate) ∧
      (questionsPerLevel ≤ s.questionsInLevel + 1 → s.currentLevel < 10 →
        (answerCorrect s body).gameRunning = s.gameRunning ∧
        (answerCorrect s body).gameWinCalls = s.gameWinCalls ∧
        (answerCorrect s body).pendingNextLevel = s.pendingNextLevel + 1 ∧
        (answerCorrect s body).pendingGenerate = s.pendingGenerate) ∧
      (s.questionsInLevel + 1 < questionsPerLevel →
        (answerCorrect s body).gameRunning = s.gameRunning ∧
        (answerCorrect s body).gameWinCalls = s.gameWinCalls ∧
        (answerCorrect s body).pendingNextLevel = s.pendingNextLevel ∧
        (answerCorrect s body).pendingGenerate = s.pendingGenerate + 1) := by
  unfold answerCorrect levelComplete gameWin
  simp only []
  refine ⟨?_, ?_, ?_⟩
  · intro h1 h2
    rw [if_pos h1, if_pos h2]
    simp
  · intro h1 h2
    rw [if_pos h1, if_neg (by omega)]
    simp
  · intro h1
    rw [if_neg (by omega)]
    simp


theorem zeroDraw_floorMul (n : Int) : zeroDraw.floorMul n = 0 := by
  simp [Draw.floorMul, zeroDraw]

theorem genCandidate_zeroDraws (c : LevelEntry) (lvl len : Nat) (i : Nat) :
    Int.ofNat len + 1 ≤ (genCandidate c lvl len zeroDraws i).1.answer := by
  have hb : zeroDraw.below 7 10 = true := by decide
  unfold genCandidate
  simp only [zeroDraws, hb, if_true, zeroDraw_floorMul]
  split_ifs <;> simp only [] <;> omega

theorem wrongLoop_zeroDraws (c : LevelEntry) (q : Question) (h2 : 2 ≤ q.answer) (fuel i : Nat) :
    ∃ w, wrongLoop 0 c q zeroDraws (fuel + 1) i = some w := by
  have hs : wrongAnswerStrategy 0 c q zeroDraw = q.answer - 3 := by
    unfold wrongAnswerStrategy
    rw [if_pos rfl, zeroDraw_floorMul]
    omega
  have hc : (wrongCandidate 0 c q zeroDraws i).1 ≠ q.answer ∧
      1 ≤ (wrongCandidate 0 c q zeroDraws i).1 := by
    unfold wrongCandidate
    simp only [zeroDraws, hs, zeroDraw_floorMul]
    by_cases hlow : q.answer - 3 < 1
    · simp only [hlow, decide_True, if_true]
      split_ifs <;> simp only [] <;> omega
    · simp only [hlow, decide_False, Bool.false_eq_true, if_false]
      split_ifs <;> simp only [] <;> omega
  unfold wrongLoop
  simp only []
  rw [if_neg (by
    intro h
    rcases h with h | h
    · exact hc.1 h
    · omega)]
  exact ⟨_, rfl⟩

theorem generateQuestion_done_of (fuel : Nat) (rnd : Nat → Draw) (s : State)
    (c : LevelEntry) (r : LoopResult) (w : Int × Nat)
    (hc : s.levelConfig.get? s.currentLevel = some c)
    (hr : questionLoop c s.currentLevel s.snake.body.length s.usedQuestions rnd fuel 0 0 [] = some r)
    (hw : wrongLoop ((rnd r.next).floorMul 5) c r.question rnd fuel (r.next + 1) = some w) :
    generateQuestion fuel rnd s = .done (withQuestion s r.question w.1) := by
  unfold generateQuestion
  simp only [hc, hr, hw]

/-- With every draw 0 and a snake that has a head, `generateQuestion` returns or
throws: it does not hang. -/
theorem generateQuestion_zeroDraws (s : State) (hbody : s.snake.body ≠ []) :
    ∃ s', (generateQuestion 51 zeroDraws s).final = some s' := by
  cases hc : s.levelConfig.get? s.currentLevel with
  | none =>
    refine ⟨s, ?_⟩
    unfold generateQuestion
    simp only [hc, Outcome.final]
  | some c =>
    obtain ⟨r, hr⟩ := questionLoop_isSome c s.currentLevel s.snake.body.length s.usedQuestions
      zeroDraws 51 0 0 [] (by norm_num) (by norm_num)
    obtain ⟨extra, _, _, hlast, _, _, _, hall⟩ := questionLoop_spec _ _ _ _ _ _ _ _ _ _ hr
    obtain ⟨j, hj⟩ := hall r.question (List.mem_of_getLast?_eq_some hlast)
    have hlen : 1 ≤ s.snake.body.length := by
      cases hb : s.snake.body with
      | nil => exact absurd hb hbody
      | cons x xs => simp
    have h2 : 2 ≤ r.question.answer := by
      have := genCandidate_zeroDraws c s.currentLevel s.snake.body.length j
      rw [← hj] at this
      simp only [Int.ofNat_eq_coe] at this
      omega
    have hk : (zeroDraws r.next).floorMul 5 = 0 := zeroDraw_floorMul 5
    obtain ⟨w, hw⟩ := wrongLoop_zeroDraws c r.question h2 50 (r.next + 1)
    rw [← hk] at hw
    exact ⟨_, by rw [generateQuestion_done_of 51 zeroDraws s c r w hc hr hw]; rfl⟩

theorem update_final (hitCorrect hitWrong : Bool) (s : State) :
    ∃ s', (update hitCorrect hitWrong s).final = some s' := by
  by_cases hr : s.gameRunning = true
  · by_cases hb : s.snake.body = []
    · exact ⟨s, by rw [update_headless _ _ s hr hb]; rfl⟩
    · obtain ⟨x, rest, hx⟩ := List.exists_cons_of_ne_nil hb
      cases hitCorrect with
      | true => exact ⟨_, by rw [update_hit_eq _ s hr x rest hx]; rfl⟩
      | false => exact ⟨_, by rw [update_miss_eq _ s hr x rest hx]; rfl⟩
  · exact ⟨s, by rw [update_stopped _ _ s (by simpa using hr)]; rfl⟩

theorem fireNextLevel_next (fuel : Nat) (rnd : Nat → Draw) (s s' : State)
    (h : (Event.fireNextLevel rnd).next fuel s = some s') :
    0 < s.pendingNextLevel ∧ s'.gameRunning = s.gameRunning ∧
      s'.currentLevel = s.currentLevel + 1 ∧ s'.questionsInLevel = 0 ∧
      s'.totalQuestionsAnswered = s.totalQuestionsAnswered ∧
      s'.pendingGenerate = s.pendingGenerate ∧ s'.pendingNextLevel = s.pendingNextLevel - 1 ∧
      s'.gameWinCalls = s.gameWinCalls ∧ s'.snake = s.snake ∧ s'.levelConfig = s.levelConfig := by
  unfold Event.next Event.run at h
  simp only [] at h
  split_ifs at h with hp
  · simp at h
  · simp only [Option.some_bind] at h
    have := generateQuestion_frame _ _ _ _ h
    simp only [] at this
    obtain ⟨a, b, c, d, e, f, g, i, j⟩ := this
    exact ⟨by omega, a, b, c, d, e, f, g, i, j⟩

theorem fireGenerate_next (fuel : Nat) (rnd : Nat → Draw) (s s' : State)
    (h : (Event.fireGenerate rnd).next fuel s = some s') :
    0 < s.pendingGenerate ∧ s'.gameRunning = s.gameRunning ∧
      s'.currentLevel = s.currentLevel ∧ s'.questionsInLevel = s.questionsInLevel ∧
      s'.totalQuestionsAnswered = s.totalQuestionsAnswered ∧
      s'.pendingGenerate = s.pendingGenerate - 1 ∧ s'.pendingNextLevel = s.pendingNextLevel ∧
      s'.gameWinCalls = s.gameWinCalls ∧ s'.snake = s.snake ∧ s'.levelConfig = s.levelConfig := by
  unfold Event.next Event.run at h
  simp only [] at h
  split_ifs at h with hp
  · simp at h
  · simp only [Option.some_bind] at h
    have := generateQuestion_frame _ _ _ _ h
    simp only [] at this
    obtain ⟨a, b, c, d, e, f, g, i, j⟩ := this
    exact ⟨by omega, a, b, c, d, e, f, g, i, j⟩


/-! ## Lemmas on the progression invariant -/

theorem CountersInStep_of_progress (s s' : State) (h : s'.progress = s.progress)
    (hi : CountersInStep s) : CountersInStep s' := by
  unfold State.progress at h
  simp only [Prod.mk.injEq] at h
  obtain ⟨h1, h2, h3, h4, h5⟩ := h
  unfold CountersInStep at *
  rw [h1, h2, h3, h4, h5]
  exact hi

theorem generateQuestion_progress (fuel : Nat) (rnd : Nat → Draw) (s s' : State)
    (h : (generateQuestion fuel rnd s).final = some s') : s'.progress = s.progress := by
  obtain ⟨a, b, c, d, _, f, _⟩ := generateQuestion_frame fuel rnd s s' h
  unfold State.progress
  rw [a, b, c, d, f]

theorem update_miss_progress (hitWrong : Bool) (s s' : State)
    (h : (update false hitWrong s).final = some s') : s'.progress = s.progress := by
  obtain ⟨body, hb⟩ := update_miss hitWrong s s' h
  subst hb
  rfl

theorem restartGame_progress (fuel : Nat) (rnd : Nat → Draw) (s s' : State)
    (h : (restartGame fuel rnd s).final = some s') :
    s'.progress = (true, 1, 0, 0, s.pendingNextLevel) := by
  unfold restartGame at h
  simp only [] at h
  split_ifs at h
  · simp only [Outcome.final, Option.some.injEq] at h
    subst h
    rfl
  · rw [generateQuestion_progress _ _ _ _ h]
    rfl

theorem changeStartingNumber_progress (value : Int) (fuel : Nat) (rnd : Nat → Draw)
    (s s' : State) (h : (changeStartingNumber value fuel rnd s).final = some s') :
    s'.progress = (true, 1, 0, 0, s.pendingNextLevel) := by
  unfold changeStartingNumber at h
  rw [restartGame_progress _ _ _ _ h]

theorem onResize_progress (innerWidth innerHeight : Int) (fuel : Nat) (rnd : Nat → Draw)
    (s s' : State) (h : (onResize innerWidth innerHeight fuel rnd s).final = some s') :
    s'.progress = s.progress := by
  unfold onResize at h
  rw [generateQuestion_progress _ _ _ _ h]
  rfl

theorem handleKeyPress_progress (k : ArrowKey) (s : State) :
    (handleKeyPress k s).progress = s.progress := by
  unfold handleKeyPress
  split_ifs
  · rfl
  · cases k <;> simp only [] <;> split_ifs <;> rfl

theorem init_progress (innerWidth innerHeight : Int) (fuel : Nat) (rnd : Nat → Draw) (s : State)
    (h : init innerWidth innerHeight fuel rnd = .done s) :
    s.progress = (true, 1, 0, 0, 0) ∧ s.gameWinCalls = 0 ∧ s.pendingGenerate = 0 ∧
      s.snake.body ≠ [] := by
  rw [init_eq_generateQuestion] at h
  have hf : (generateQuestion fuel rnd
      { startState innerWidth innerHeight with
        currentLevel := 1, questionsInLevel := 0, totalQuestionsAnswered := 0 }).final = some s := by
    rw [h]; rfl
  obtain ⟨_, _, _, _, e, _, g, i, _⟩ := generateQuestion_frame _ _ _ _ hf
  refine ⟨?_, ?_, ?_, ?_⟩
  · rw [generateQuestion_progress _ _ _ _ hf]; rfl
  · rw [g]; rfl
  · rw [e]; rfl
  · rw [i]; simp [startState, freshSnake, setupCanvas, moduleState, buildBody]

/-- The step of the invariant behind C6. -/
theorem CountersInStep_step (fuel : Nat) (e : Event) (s s' : State)
    (hi : CountersInStep s) (hg : e.answersOrResets = true → s.pendingNextLevel = 0)
    (h : e.next fuel s = some s') : CountersInStep s' := by
  cases e with
  | tick hitCorrect hitWrong =>
    simp only [Event.next, Event.run, Option.some_bind] at h
    cases hitCorrect with
    | false => exact CountersInStep_of_progress _ _ (update_miss_progress _ _ _ h) hi
    | true =>
      have hp : s.pendingNextLevel = 0 := hg rfl
      by_cases hr : s.gameRunning = true
      · by_cases hb : s.snake.body = []
        · rw [update_headless _ _ s hr hb] at h
          simp only [Outcome.final, Option.some.injEq] at h
          subst h; exact hi
        · obtain ⟨x, rest, hx⟩ := List.exists_cons_of_ne_nil hb
          rw [update_hit_eq _ s hr x rest hx] at h
          simp only [Outcome.final, Option.some.injEq] at h
          subst h
          obtain ⟨h1, h2, h3, _⟩ := answerCorrect_fields s (nextHead s x :: x :: rest) (by simp)
          obtain ⟨p1, p2, p3⟩ := answerCorrect_progress s (nextHead s x :: x :: rest)
          obtain ⟨i1, i2, i3, _⟩ := hi
          have hq := i3 hp hr
          unfold CountersInStep
          rw [h1, h2, h3]
          refine ⟨by omega, i2, ?_, ?_⟩
          · intro hp' hr'
            by_contra hge
            have hge' : questionsPerLevel ≤ s.questionsInLevel + 1 := by omega
            by_cases hl : 10 ≤ s.currentLevel
            · rw [(p1 hge' hl).1] at hr'; cases hr'
            · have := (p2 hge' (by omega)).2.2.1
              omega
          · intro hp'
            by_cases hge : questionsPerLevel ≤ s.questionsInLevel + 1
            · by_cases hl : 10 ≤ s.currentLevel
              · have := (p1 hge hl).2.2.1
                omega
              · have := (p2 hge (by omega)).2.2.1
                exact ⟨by omega, by omega⟩
            · have := (p3 (by omega)).2.2.1
              omega
      · rw [update_stopped _ _ s (by simpa using hr)] at h
        simp only [Outcome.final, Option.some.injEq] at h
        subst h; exact hi
  | fireGenerate rnd =>
    obtain ⟨_, a, b, c, d, _, f, _⟩ := fireGenerate_next fuel rnd s s' h
    exact CountersInStep_of_progress _ _ (by unfold State.progress; rw [a, b, c, d, f]) hi
  | fireNextLevel rnd =>
    obtain ⟨hp, a, b, c, d, _, f, _⟩ := fireNextLevel_next fuel rnd s s' h
    obtain ⟨i1, i2, _, i4⟩ := hi
    obtain ⟨j1, j2⟩ := i4 hp
    unfold CountersInStep
    rw [b, c, d, f]
    unfold questionsPerLevel at *
    refine ⟨by omega, by omega, fun _ _ => by omega, fun hh => by omega⟩
  | restart rnd =>
    simp only [Event.next, Event.run, Option.some_bind] at h
    have hp : s.pendingNextLevel = 0 := hg rfl
    have := restartGame_progress fuel rnd s s' h
    simp only [State.progress, Prod.mk.injEq] at this
    obtain ⟨a, b, c, d, f⟩ := this
    unfold CountersInStep
    rw [b, c, d, f]
    unfold questionsPerLevel
    refine ⟨by omega, by omega, fun _ _ => by omega, fun hh => by omega⟩
  | changeStart value rnd =>
    simp only [Event.next, Event.run, Option.some_bind] at h
    have hp : s.pendingNextLevel = 0 := hg rfl
    have := changeStartingNumber_progress value fuel rnd s s' h
    simp only [State.progress, Prod.mk.injEq] at this
    obtain ⟨a, b, c, d, f⟩ := this
    unfold CountersInStep
    rw [b, c, d, f]
    unfold questionsPerLevel
    refine ⟨by omega, by omega, fun _ _ => by omega, fun hh => by omega⟩
  | key k =>
    simp only [Event.next, Event.run, Option.some_bind, Outcome.final, Option.some.injEq] at h
    subst h
    exact CountersInStep_of_progress _ _ (handleKeyPress_progress k s) hi
  | resize innerWidth innerHeight rnd =>
    simp only [Event.next, Event.run, Option.some_bind] at h
    exact CountersInStep_of_progress _ _ (onResize_progress _ _ _ _ _ _ h) hi
  | stop =>
    simp only [Event.next, Event.run, Option.some_bind, Outcome.final, Option.some.injEq] at h
    subst h
    obtain ⟨i1, i2, _, i4⟩ := hi
    exact ⟨i1, i2, fun _ hr => by simp [gameOver] at hr, i4⟩

theorem OrderlyReachable_inv (s : State) (h : OrderlyReachable s) : CountersInStep s := by
  induction h with
  | start innerWidth innerHeight fuel rnd s hs =>
    obtain ⟨hp, _⟩ := init_progress _ _ _ _ _ hs
    simp only [State.progress, Prod.mk.injEq] at hp
    obtain ⟨a, b, c, d, f⟩ := hp
    unfold CountersInStep questionsPerLevel
    rw [b, c, d, f]
    refine ⟨by omega, by omega, fun _ _ => by omega, fun hh => by omega⟩
  | step fuel e s s' _ hg hn ih => exact CountersInStep_step fuel e s s' ih hg hn

theorem Reachable_runEvents (fuel : Nat) (es : List Event) :
    ∀ s s', Reachable s → runEvents fuel es s = some s' → Reachable s' := by
  induction es with
  | nil =>
    intro s s' hr h
    simp only [runEvents, Option.some.injEq] at h
    subst h; exact hr
  | cons e es ih =>
    intro s s' hr h
    simp only [runEvents] at h
    cases hn : e.next fuel s with
    | none => rw [hn] at h; simp at h
    | some s1 =>
      rw [hn] at h
      exact ih s1 s' (Reachable.step fuel e s s1 hr hn) h


theorem OrderlyReachable_runOrderly (fuel : Nat) (es : List Event) :
    ∀ s s', OrderlyReachable s → runOrderly fuel es s = some s' → OrderlyReachable s' := by
  induction es with
  | nil =>
    intro s s' hr h
    simp only [runOrderly, Option.some.injEq] at h
    subst h; exact hr
  | cons e es ih =>
    intro s s' hr h
    simp only [runOrderly] at h
    split_ifs at h with hg
    cases hn : e.next fuel s with
    | none => rw [hn] at h; simp at h
    | some s1 =>
      rw [hn] at h
      refine ih s1 s' (OrderlyReachable.step fuel e s s1 hr ?_ hn) h
      intro ha
      by_contra hp
      exact hg ⟨ha, hp⟩


theorem tick_hit_next (fuel : Nat) (hitWrong : Bool) (s : State) (hrun : s.gameRunning = true)
    (hbody : s.snake.body ≠ []) :
    ∃ body, body ≠ [] ∧
      (Event.tick true hitWrong).next fuel s = some (answerCorrect s body) := by
  obtain ⟨x, rest, hx⟩ := List.exists_cons_of_ne_nil hbody
  refine ⟨nextHead s x :: x :: rest, by simp, ?_⟩
  simp only [Event.next, Event.run, Option.some_bind]
  rw [update_hit_eq _ s hrun x rest hx]
  rfl

/-- One round of the regular schedule keeps `AfterCorrect`. -/
theorem AfterCorrect_round (fuel : Nat) (rnd : Nat → Draw) (n : Nat) (s s' : State)
    (hn : n < 100) (hi : AfterCorrect n s)
    (h : correctAnswerRound fuel rnd s = some s') : AfterCorrect (n + 1) s' := by
  obtain ⟨i1, i2, i3, i4, i5, _⟩ := hi
  obtain ⟨r1, r2, r3, r4⟩ := i5 hn
  obtain ⟨body, hb, ht⟩ := tick_hit_next fuel false s r1 i4
  obtain ⟨f1, f2, f3, _, _, _, f7, _⟩ := answerCorrect_fields s body hb
  obtain ⟨p1, p2, p3⟩ := answerCorrect_progress s body
  unfold correctAnswerRound at h
  rw [ht] at h
  simp only [Option.some_bind] at h
  unfold questionsPerLevel at p1 p2 p3
  by_cases hq : 10 ≤ s.questionsInLevel + 1
  · by_cases hl : 10 ≤ s.currentLevel
    · obtain ⟨a, b, c, d⟩ := p1 hq hl
      rw [if_neg (by omega), if_neg (by omega)] at h
      simp only [Option.some.injEq] at h
      subst h
      unfold AfterCorrect
      rw [f1, f2, f3, a, b, c, d]
      refine ⟨by omega, by omega, by omega, f7, fun hh => by omega, fun hh => ?_⟩
      exact ⟨rfl, by omega, by omega, by omega⟩
    · obtain ⟨a, b, c, d⟩ := p2 hq (by omega)
      rw [if_pos (by omega)] at h
      obtain ⟨_, g1, g2, g3, g4, g5, g6, g7, g8, _⟩ := fireNextLevel_next fuel rnd _ s' h
      unfold AfterCorrect
      rw [g1, g2, g3, g4, g5, g6, g7, g8, f2, f3, a, b, c, d]
      refine ⟨by omega, by omega, by omega, f7, fun hh => ?_, fun hh => by omega⟩
      exact ⟨r1, by omega, by omega, by omega⟩
  · obtain ⟨a, b, c, d⟩ := p3 (by omega)
    rw [if_neg (by omega), if_pos (by omega)] at h
    obtain ⟨_, g1, g2, g3, g4, g5, g6, g7, g8, _⟩ := fireGenerate_next fuel rnd _ s' h
    unfold AfterCorrect
    rw [g1, g2, g3, g4, g5, g6, g7, g8, f1, f2, f3, a, b, c, d]
    refine ⟨by omega, by omega, by omega, f7, fun hh => ?_, fun hh => by omega⟩
    exact ⟨r1, by omega, by omega, by omega⟩

/-- With every draw 0 a round of the regular schedule goes through. -/
theorem correctAnswerRound_zeroDraws (n : Nat) (s : State) (hn : n < 100)
    (hi : AfterCorrect n s) : ∃ s', correctAnswerRound 51 zeroDraws s = some s' := by
  obtain ⟨i1, i2, i3, i4, i5, _⟩ := hi
  obtain ⟨r1, r2, r3, r4⟩ := i5 hn
  obtain ⟨body, hb, ht⟩ := tick_hit_next 51 false s r1 i4
  obtain ⟨_, _, _, _, _, _, f7, _⟩ := answerCorrect_fields s body hb
  unfold correctAnswerRound
  rw [ht]
  simp only [Option.some_bind]
  split_ifs with h1 h2
  · obtain ⟨s2, hs2⟩ := generateQuestion_zeroDraws
      { answerCorrect s body with
        pendingNextLevel := (answerCorrect s body).pendingNextLevel - 1,
        currentLevel := (answerCorrect s body).currentLevel + 1,
        questionsInLevel := 0 } f7
    refine ⟨s2, ?_⟩
    unfold Event.next Event.run
    simp only []
    rw [if_neg (by omega)]
    exact hs2
  · obtain ⟨s2, hs2⟩ := generateQuestion_zeroDraws
      { answerCorrect s body with
        pendingGenerate := (answerCorrect s body).pendingGenerate - 1 } f7
    refine ⟨s2, ?_⟩
    unfold Event.next Event.run
    simp only []
    rw [if_neg (by omega)]
    exact hs2
  · exact ⟨_, rfl⟩

theorem correctRun_inv (fuel : Nat) (rnds : Nat → Nat → Draw) (s0 : State)
    (h0 : AfterCorrect 0 s0) :
    ∀ n, n ≤ 100 → ∀ sn, correctRun fuel rnds n s0 = some sn → AfterCorrect n sn := by
  intro n
  induction n with
  | zero =>
    intro _ sn h
    simp only [correctRun, Option.some.injEq] at h
    subst h; exact h0
  | succ m ih =>
    intro hm sn h
    simp only [correctRun] at h
    cases hp : correctRun fuel rnds m s0 with
    | none => rw [hp] at h; simp at h
    | some sm =>
      rw [hp] at h
      exact AfterCorrect_round fuel (rnds m) m sm sn (by omega) (ih (by omega) sm hp) h

theorem correctRun_earlier (fuel : Nat) (rnds : Nat → Nat → Draw) (s0 : State) (m : Nat) :
    ∀ k sm, correctRun fuel rnds (m + k) s0 = some sm →
      ∃ sn, correctRun fuel rnds m s0 = some sn := by
  intro k
  induction k with
  | zero => intro sm h; exact ⟨sm, h⟩
  | succ j ih =>
    intro sm h
    rw [← Nat.add_assoc] at h
    simp only [correctRun] at h
    cases hp : correctRun fuel rnds (m + j) s0 with
    | none => rw [hp] at h; simp at h
    | some sj => exact ih sj hp

theorem correctRun_zeroDraws (s0 : State) (h0 : AfterCorrect 0 s0) :
    ∀ n, n ≤ 100 → ∃ sn, correctRun 51 (fun _ => zeroDraws) n s0 = some sn := by
  intro n
  induction n with
  | zero => intro _; exact ⟨s0, rfl⟩
  | succ m ih =>
    intro hm
    obtain ⟨sm, hsm⟩ := ih (by omega)
    have hi := correctRun_inv 51 (fun _ => zeroDraws) s0 h0 m (by omega) sm hsm
    obtain ⟨s', hs'⟩ := correctAnswerRound_zeroDraws m sm (by omega) hi
    refine ⟨s', ?_⟩
    simp only [correctRun, hsm, Option.some_bind]
    exact hs'

theorem init_AfterCorrect (innerWidth innerHeight : Int) (fuel : Nat) (rnd : Nat → Draw)
    (s : State) (h : init innerWidth innerHeight fuel rnd = .done s) : AfterCorrect 0 s := by
  obtain ⟨hp, hw, hg, hb⟩ := init_progress _ _ _ _ _ h
  simp only [State.progress, Prod.mk.injEq] at hp
  obtain ⟨a, b, c, d, f⟩ := hp
  exact ⟨d, f, hg, hb, fun _ => ⟨a, b, c, hw⟩, fun hh => by omega⟩


/-! ## The tick: the claims -/

/-- C8: a tick of `update` with the head on the wrong block and not on the
correct block returns and leaves the level, both counters, the current question
and the history as they were; no `generateQuestion` is called or scheduled, and
both block values stay. -/
theorem wrong_tick_keeps_question (s : State) :
    ∃ s', (update false true s).final = some s' ∧
      s'.currentLevel = s.currentLevel ∧ s'.questionsInLevel = s.questionsInLevel ∧
      s'.totalQuestionsAnswered = s.totalQuestionsAnswered ∧
      s'.currentQuestion = s.currentQuestion ∧ s'.usedQuestions = s.usedQuestions ∧
      s'.pendingGenerate = s.pendingGenerate ∧ s'.pendingNextLevel = s.pendingNextLevel ∧
      s'.correctValue = s.correctValue ∧ s'.wrongValue = s.wrongValue := by
  obtain ⟨s', hs'⟩ := update_final false true s
  obtain ⟨body, hb⟩ := update_miss true s s' hs'
  refine ⟨s', hs', ?_⟩
  subst hb
  simp

/-- C9: in a running game whose snake has a head, a current question `q` and a
positive virtual length `v`, a tick with the head on the correct block returns
with `questionsInLevel` and `totalQuestionsAnswered` each one larger and with
`snake.virtualLength = v + q.num2`. -/
theorem correct_tick_counts_and_grows (hitWrong : Bool) (s : State) (q : Question) (v : Int)
    (hrun : s.gameRunning = true) (hbody : s.snake.body ≠ [])
    (hq : s.currentQuestion = some q) (hv : s.snake.virtualLength = some v) (hpos : 0 < v) :
    ∃ s', update true hitWrong s = .done s' ∧
      s'.questionsInLevel = s.questionsInLevel + 1 ∧
      s'.totalQuestionsAnswered = s.totalQuestionsAnswered + 1 ∧
      s'.snake.virtualLength = some (v + q.num2) := by
  obtain ⟨x, rest, hx⟩ := List.exists_cons_of_ne_nil hbody
  refine ⟨_, update_hit_eq hitWrong s hrun x rest hx, ?_⟩
  obtain ⟨h1, h2, _, _, _, _, _, h8⟩ :=
    answerCorrect_fields s (nextHead s x :: x :: rest) (by simp)
  refine ⟨h1, h2, ?_⟩
  rw [h8, hq, hv]
  have : v ≠ 0 := by omega
  simp [virtualOrBody, this]

/-- C9, witness: the state after `init` with all draws 0 (question 1 + 1 = 2,
virtual length 1). -/
theorem correct_tick_counts_and_grows_witness :
    firstState.gameRunning = true ∧ firstState.snake.body ≠ [] ∧
      firstState.currentQuestion = some { num1 := 1, num2 := 1, answer := 2 } ∧
      firstState.snake.virtualLength = some 1 ∧
      ∃ s', update true false firstState = .done s' ∧
        s'.questionsInLevel = firstState.questionsInLevel + 1 ∧
        s'.totalQuestionsAnswered = firstState.totalQuestionsAnswered + 1 ∧
        s'.snake.virtualLength = some (1 + ({ num1 := 1, num2 := 1, answer := 2 } : Question).num2) :=
  ⟨by decide, by decide, by decide, by decide,
    correct_tick_counts_and_grows false firstState { num1 := 1, num2 := 1, answer := 2 } 1
      (by decide) (by decide) (by decide) (by decide) (by decide)⟩

/-- C10: a correct answer in a running game.  When it brings `questionsInLevel`
to 10 at level 10 (or above), `gameWin` runs: the game stops, the level stays and
no timer is scheduled.  When it brings `questionsInLevel` to 10 below level 10,
one `nextLevel` timer is scheduled; that timer can fire, and whenever it has
fired the game is running at the next level with `questionsInLevel = 0` and
`totalQuestionsAnswered` as the tick left it.  When `questionsInLevel` stays
below 10 the level is unchanged. -/
theorem level_boundary_transition (hitWrong : Bool) (s : State)
    (hrun : s.gameRunning = true) (hbody : s.snake.body ≠ []) :
    ∃ s1, update true hitWrong s = .done s1 ∧
      s1.totalQuestionsAnswered = s.totalQuestionsAnswered + 1 ∧
      (s.questionsInLevel + 1 = questionsPerLevel → 10 ≤ s.currentLevel →
        s1.gameRunning = false ∧ s1.currentLevel = s.currentLevel ∧
        s1.currentQuestion = s.currentQuestion ∧ s1.usedQuestions = s.usedQuestions ∧
        s1.pendingGenerate = s.pendingGenerate ∧ s1.pendingNextLevel = s.pendingNextLevel) ∧
      (s.questionsInLevel + 1 = questionsPerLevel → s.currentLevel < 10 →
        s1.gameRunning = true ∧ s1.currentLevel = s.currentLevel ∧
        s1.pendingNextLevel = s.pendingNextLevel + 1 ∧
        (∃ s2, (Event.fireNextLevel zeroDraws).next 51 s1 = some s2) ∧
        ∀ fuel rnd s2, (Event.fireNextLevel rnd).next fuel s1 = some s2 →
          s2.gameRunning = true ∧ s2.currentLevel = s.currentLevel + 1 ∧
          s2.questionsInLevel = 0 ∧
          s2.totalQuestionsAnswered = s1.totalQuestionsAnswered) ∧
      (s.questionsInLevel + 1 < questionsPerLevel →
        s1.gameRunning = true ∧ s1.currentLevel = s.currentLevel ∧
        s1.pendingNextLevel = s.pendingNextLevel) := by
  obtain ⟨x, rest, hx⟩ := List.exists_cons_of_ne_nil hbody
  refine ⟨_, update_hit_eq hitWrong s hrun x rest hx, ?_⟩
  obtain ⟨_, h2, h3, h4, h5, _, h7, _⟩ :=
    answerCorrect_fields s (nextHead s x :: x :: rest) (by simp)
  obtain ⟨p1, p2, p3⟩ := answerCorrect_progress s (nextHead s x :: x :: rest)
  refine ⟨h2, ?_, ?_, ?_⟩
  · intro hq hl
    obtain ⟨a, _, c, d⟩ := p1 (by omega) hl
    exact ⟨a, h3, h4, h5, d, c⟩
  · intro hq hl
    obtain ⟨a, _, c, _⟩ := p2 (by omega) hl
    refine ⟨by rw [a, hrun], h3, c, ?_, ?_⟩
    · obtain ⟨s2, hs2⟩ := generateQuestion_zeroDraws
        { answerCorrect s (nextHead s x :: x :: rest) with
          pendingNextLevel := (answerCorrect s (nextHead s x :: x :: rest)).pendingNextLevel - 1,
          currentLevel := (answerCorrect s (nextHead s x :: x :: rest)).currentLevel + 1,
          questionsInLevel := 0 } h7
      refine ⟨s2, ?_⟩
      unfold Event.next Event.run
      simp only []
      rw [if_neg (by omega)]
      exact hs2
    · intro fuel rnd s2 hs2
      obtain ⟨_, f1, f2, f3, f4, _⟩ := fireNextLevel_next fuel rnd _ s2 hs2
      exact ⟨by rw [f1, a, hrun], by rw [f2, h3], f3, f4⟩
  · intro hq
    obtain ⟨a, _, c, _⟩ := p3 hq
    exact ⟨by rw [a, hrun], h3, c⟩

/-- C10, witness: level 1 with nine questions answered, so that the tick brings
`questionsInLevel` to 10. -/
theorem level_boundary_transition_witness :
    nineAnswered.gameRunning = true ∧ nineAnswered.snake.body ≠ [] ∧
    nineAnswered.currentLevel = 1 ∧ nineAnswered.questionsInLevel = 9 ∧
    ∃ s1, update true false nineAnswered = .done s1 ∧
      s1.totalQuestionsAnswered = nineAnswered.totalQuestionsAnswered + 1 ∧
      (nineAnswered.questionsInLevel + 1 = questionsPerLevel → 10 ≤ nineAnswered.currentLevel →
        s1.gameRunning = false ∧ s1.currentLevel = nineAnswered.currentLevel ∧
        s1.currentQuestion = nineAnswered.currentQuestion ∧
        s1.usedQuestions = nineAnswered.usedQuestions ∧
        s1.pendingGenerate = nineAnswered.pendingGenerate ∧
        s1.pendingNextLevel = nineAnswered.pendingNextLevel) ∧
      (nineAnswered.questionsInLevel + 1 = questionsPerLevel → nineAnswered.currentLevel < 10 →
        s1.gameRunning = true ∧ s1.currentLevel = nineAnswered.currentLevel ∧
        s1.pendingNextLevel = nineAnswered.pendingNextLevel + 1 ∧
        (∃ s2, (Event.fireNextLevel zeroDraws).next 51 s1 = some s2) ∧
        ∀ fuel rnd s2, (Event.fireNextLevel rnd).next fuel s1 = some s2 →
          s2.gameRunning = true ∧ s2.currentLevel = nineAnswered.currentLevel + 1 ∧
          s2.questionsInLevel = 0 ∧
          s2.totalQuestionsAnswered = s1.totalQuestionsAnswered) ∧
      (nineAnswered.questionsInLevel + 1 < questionsPerLevel →
        s1.gameRunning = true ∧ s1.currentLevel = nineAnswered.currentLevel ∧
        s1.pendingNextLevel = nineAnswered.pendingNextLevel) :=
  ⟨by decide, by decide, by decide, by decide,
    level_boundary_transition false nineAnswered (by decide) (by decide)⟩


/-! ## The progression: the claims -/

/-- C6, counterexample: ten correct answers at level 1, then the head goes round
one grid square and meets the correct block again before the `nextLevel` timer
fires, then the two `nextLevel` timers fire.  The state is reachable and has
level 3, `questionsInLevel = 0` and `totalQuestionsAnswered = 11`, not 20. -/
theorem counters_disagree_after_early_answer :
    ∃ s, init 820 700 1 zeroDraws = .done firstState ∧
      runEvents 51 earlyAnswerEvents firstState = some s ∧ Reachable s ∧
      s.currentLevel = 3 ∧ s.questionsInLevel = 0 ∧ s.totalQuestionsAnswered = 11 ∧
      s.totalQuestionsAnswered ≠ (s.currentLevel - 1) * 10 + s.questionsInLevel := by
  have hinit : init 820 700 1 zeroDraws = .done firstState := by decide
  have hsome : (runEvents 51 earlyAnswerEvents firstState).isSome = true := by decide
  have hrun := eq_some_getD _ firstState hsome
  have hval : ((runEvents 51 earlyAnswerEvents firstState).getD firstState).progress
      = (true, 3, 0, 11, 0) := by decide
  simp only [State.progress, Prod.mk.injEq] at hval
  obtain ⟨_, h2, h3, h4, _⟩ := hval
  refine ⟨_, hinit, hrun, ?_, h2, h3, h4, ?_⟩
  · exact Reachable_runEvents 51 earlyAnswerEvents firstState _
      (Reachable.start 820 700 1 zeroDraws firstState hinit) hrun
  · rw [h2, h3, h4]; decide

/-- C6, amended: in every state reachable from the state after `init` by
transitions (ticks, timer callbacks, restart, change of the starting number, key
presses, resizes, game over) among which a correct-answer tick, a restart or a
change of the starting number happens only while no `nextLevel` timer is pending,
`totalQuestionsAnswered = (currentLevel - 1) * 10 + questionsInLevel`, with
`currentLevel ≥ 1`. -/
theorem counters_agree_when_orderly (s : State) (h : OrderlyReachable s) :
    s.totalQuestionsAnswered = (s.currentLevel - 1) * 10 + s.questionsInLevel ∧
      1 ≤ s.currentLevel := by
  obtain ⟨h1, h2, _, _⟩ := OrderlyReachable_inv s h
  exact ⟨h1, h2⟩

/-- C6, witness: the state at the start of level 2, after ten correct answers
each followed by the callback it scheduled. -/
theorem counters_agree_when_orderly_witness :
    OrderlyReachable levelUpState ∧ levelUpState.currentLevel = 2 ∧
      (levelUpState.totalQuestionsAnswered
          = (levelUpState.currentLevel - 1) * 10 + levelUpState.questionsInLevel ∧
        1 ≤ levelUpState.currentLevel) :=
  ⟨OrderlyReachable_runOrderly 51 levelUpEvents firstState levelUpState
      (OrderlyReachable.start 820 700 1 zeroDraws firstState (by decide))
      (eq_some_getD _ firstState (by decide)),
    by decide,
    counters_agree_when_orderly levelUpState
      (OrderlyReachable_runOrderly 51 levelUpEvents firstState levelUpState
        (OrderlyReachable.start 820 700 1 zeroDraws firstState (by decide))
        (eq_some_getD _ firstState (by decide)))⟩

/-- C7: from the state after `init`, take 100 correct answers in a row, each one
a tick with the head on the correct block followed by the timer callback that
the tick scheduled (`generateQuestion`, or `nextLevel` at a level boundary).
Such a run exists (all draws 0), and in every such run the game is won after the
100th answer, with `gameWin` called exactly once, while after each of the
answers before it the game is still running and `gameWin` has not been called. -/
theorem hundred_correct_answers_win_once (innerWidth innerHeight : Int) (fuel0 : Nat)
    (rnd0 : Nat → Draw) (s0 : State)
    (hinit : init innerWidth innerHeight fuel0 rnd0 = .done s0) :
    (∃ s100, correctRun 51 (fun _ => zeroDraws) 100 s0 = some s100) ∧
      ∀ (fuel : Nat) (rnds : Nat → Nat → Draw) (s100 : State),
        correctRun fuel rnds 100 s0 = some s100 →
        s100.gameRunning = false ∧ s100.gameWinCalls = 1 ∧
        s100.totalQuestionsAnswered = 100 ∧
        ∀ n, n < 100 → ∃ sn, correctRun fuel rnds n s0 = some sn ∧
          sn.gameRunning = true ∧ sn.gameWinCalls = 0 ∧ sn.totalQuestionsAnswered = n := by
  have h0 := init_AfterCorrect _ _ _ _ _ hinit
  refine ⟨correctRun_zeroDraws s0 h0 100 (le_refl _), ?_⟩
  intro fuel rnds s100 hrun
  obtain ⟨a, _, _, _, _, b⟩ := correctRun_inv fuel rnds s0 h0 100 (le_refl _) s100 hrun
  obtain ⟨b1, _, _, b4⟩ := b rfl
  refine ⟨b1, b4, a, ?_⟩
  intro n hn
  obtain ⟨sn, hsn⟩ := correctRun_earlier fuel rnds s0 n (100 - n) s100
    (by rw [Nat.add_sub_cancel' (by omega)]; exact hrun)
  obtain ⟨c, _, _, _, d, _⟩ := correctRun_inv fuel rnds s0 h0 n (by omega) sn hsn
  obtain ⟨d1, _, _, d4⟩ := d hn
  exact ⟨sn, hsn, d1, d4, c⟩

/-- C7, witness: the page loads in an 820 × 700 window with all draws 0. -/
theorem hundred_correct_answers_win_once_witness :
    init 820 700 1 zeroDraws = .done firstState ∧
    ((∃ s100, correctRun 51 (fun _ => zeroDraws) 100 firstState = some s100) ∧
      ∀ (fuel : Nat) (rnds : Nat → Nat → Draw) (s100 : State),
        correctRun fuel rnds 100 firstState = some s100 →
        s100.gameRunning = false ∧ s100.gameWinCalls = 1 ∧
        s100.totalQuestionsAnswered = 100 ∧
        ∀ n, n < 100 → ∃ sn, correctRun fuel rnds n firstState = some sn ∧
          sn.gameRunning = true ∧ sn.gameWinCalls = 0 ∧ sn.totalQuestionsAnswered = n) :=
  ⟨by decide, hundred_correct_answers_win_once 820 700 1 zeroDraws firstState (by decide)⟩


/-! ## Restart and change of the starting number: the claims -/

theorem restartGame_final (fuel : Nat) (rnd : Nat → Draw) (s s' : State)
    (h : (restartGame fuel rnd s).final = some s') :
    s' = { s with gameRunning := true, currentLevel := 1, questionsInLevel := 0,
                  totalQuestionsAnswered := 0,
                  snake := freshSnake s { x := gridSize, y := 0 } } ∨
    ∃ q w, s' = withQuestion
      { s with gameRunning := true, currentLevel := 1, questionsInLevel := 0,
               totalQuestionsAnswered := 0,
               snake := freshSnake s { x := gridSize, y := 0 } } q w := by
  unfold restartGame at h
  simp only [] at h
  split_ifs at h
  · left
    simp only [Outcome.final, Option.some.injEq] at h
    exact h.symm
  · exact generateQuestion_final _ _ _ _ h

theorem restartGame_zeroDraws (s : State) :
    ∃ s', (restartGame 51 zeroDraws s).final = some s' := by
  unfold restartGame
  simp only []
  split_ifs with hb
  · exact ⟨_, rfl⟩
  · apply generateQuestion_zeroDraws
    intro he
    apply hb
    rw [he]
    rfl

/-- C11, counterexample: at level 3 with `questionsInLevel = 5` the starting
number is changed to 21, all draws 0.  The call completes at level 1 with level 1
configured as 21 to 31, and `usedQuestions` holds the key 21+1=22 of the question
that `restartGame` generated: it is not empty. -/
theorem history_not_empty_after_change :
    changeStartingNumber 21 1 zeroDraws midGameState = .done changedState ∧
      midGameState.currentLevel = 3 ∧ midGameState.questionsInLevel = 5 ∧
      changedState.currentLevel = 1 ∧
      changedState.levelConfig.get? 1 = some { min := 21, max := 31 } ∧
      changedState.usedQuestions = [{ num1 := 21, num2 := 1, answer := 22 }] ∧
      changedState.usedQuestions ≠ [] := by
  decide

/-- C11, amended: for every new starting number and every prior state, when
`changeStartingNumber` completes the game is running at level 1 with
`questionsInLevel = 0` and `totalQuestionsAnswered = 0`, `levelConfig` equals
`generateLevelConfig` of the new starting number, and `usedQuestions` holds
exactly one key, the key of the new current question. -/
theorem changeStartingNumber_resets (value : Int) (fuel : Nat) (rnd : Nat → Draw)
    (s s' : State) (h : changeStartingNumber value fuel rnd s = .done s') :
    s'.gameRunning = true ∧ s'.currentLevel = 1 ∧ s'.questionsInLevel = 0 ∧
      s'.totalQuestionsAnswered = 0 ∧ s'.selectedStartingNumber = value ∧
      s'.levelConfig = generateLevelConfig value ∧
      ∃ q, s'.currentQuestion = some q ∧ s'.usedQuestions = [q] := by
  unfold changeStartingNumber restartGame at h
  simp only [] at h
  split_ifs at h
  obtain ⟨c, r, w, _, _, _, hs'⟩ := generateQuestion_done _ _ _ _ h
  subst hs'
  refine ⟨rfl, rfl, rfl, rfl, rfl, rfl, r.question, rfl, ?_⟩
  simp [withQuestion, setAdd]

/-- C11, witness: the starting number is changed to 21 at level 3 with
`questionsInLevel = 5`; level 1 becomes 21 to 31. -/
theorem changeStartingNumber_resets_witness :
    changeStartingNumber 21 1 zeroDraws midGameState = .done changedState ∧
    (generateLevelConfig 21).get? 1 = some { min := 21, max := 31 } ∧
    (changedState.gameRunning = true ∧ changedState.currentLevel = 1 ∧
      changedState.questionsInLevel = 0 ∧ changedState.totalQuestionsAnswered = 0 ∧
      changedState.selectedStartingNumber = 21 ∧
      changedState.levelConfig = generateLevelConfig 21 ∧
      ∃ q, changedState.currentQuestion = some q ∧ changedState.usedQuestions = [q]) :=
  ⟨by decide, by decide,
    changeStartingNumber_resets 21 1 zeroDraws midGameState changedState (by decide)⟩

/-- C12: `restartGame` run with all draws 0 returns or throws from every state,
and whenever `restartGame` has returned or thrown, `gameRunning` is true, the
level is 1, both counters are 0, `snake.virtualLength` is the selected starting
number, `levelConfig` and `selectedStartingNumber` are as before, and every key
that was in `usedQuestions` is still in it. -/
theorem restartGame_resets (s : State) :
    (∃ s', (restartGame 51 zeroDraws s).final = some s') ∧
    ∀ (fuel : Nat) (rnd : Nat → Draw) (s' : State),
      (restartGame fuel rnd s).final = some s' →
      s'.gameRunning = true ∧ s'.currentLevel = 1 ∧ s'.questionsInLevel = 0 ∧
        s'.totalQuestionsAnswered = 0 ∧
        s'.snake.virtualLength = some s.selectedStartingNumber ∧
        s'.levelConfig = s.levelConfig ∧
        s'.selectedStartingNumber = s.selectedStartingNumber ∧
        ∀ k, k ∈ s.usedQuestions → k ∈ s'.usedQuestions := by
  refine ⟨restartGame_zeroDraws s, ?_⟩
  intro fuel rnd s' h
  rcases restartGame_final fuel rnd s s' h with h | ⟨q, w, h⟩ <;> subst h
  · exact ⟨rfl, rfl, rfl, rfl, rfl, rfl, rfl, fun k hk => hk⟩
  · refine ⟨rfl, rfl, rfl, rfl, rfl, rfl, rfl, fun k hk => ?_⟩
    exact (setAdd_mem _ _ _).2 (Or.inl hk)

/-- C12, witness: `restartGame` at level 3 with `questionsInLevel = 5`, starting
number 1 and the key 24+1=25 in the history, all draws 0. -/
theorem restartGame_resets_witness :
    (restartGame 1 zeroDraws midGameState).final = some restartedState ∧
    midGameState.usedQuestions = [{ num1 := 24, num2 := 1, answer := 25 }] ∧
    restartedState.usedQuestions
      = [{ num1 := 24, num2 := 1, answer := 25 }, { num1 := 1, num2 := 1, answer := 2 }] ∧
    (restartedState.gameRunning = true ∧ restartedState.currentLevel = 1 ∧
      restartedState.questionsInLevel = 0 ∧ restartedState.totalQuestionsAnswered = 0 ∧
      restartedState.snake.virtualLength = some midGameState.selectedStartingNumber ∧
      restartedState.levelConfig = midGameState.levelConfig ∧
      restartedState.selectedStartingNumber = midGameState.selectedStartingNumber ∧
      ∀ k, k ∈ midGameState.usedQuestions → k ∈ restartedState.usedQuestions) :=
  ⟨by decide, by decide, by decide,
    (restartGame_resets midGameState).2 1 zeroDraws restartedState (by decide)⟩

/-! ## Level configuration, random-number mode, collision test and first strategy: the claims -/

theorem generateLevelConfig_get?_some (start : Int) (level : Nat) (h1 : 1 ≤ level)
    (h10 : level ≤ 10) :
    (generateLevelConfig start).get? level
      = some { min := start + (Int.ofNat level - 1) * 10,
               max := start + (Int.ofNat level - 1) * 10 + 10 } := by
  have hex : ∃ c, (generateLevelConfig start).get? level = some c := by
    interval_cases level <;> exact ⟨_, rfl⟩
  obtain ⟨c, hc⟩ := hex
  rw [hc, generateLevelConfig_get? start level c hc]

/-- C15: for every integer starting number and every level `L` in 1..10,
`generateLevelConfig` has an entry with `min = start + (L - 1) * 10` and
`max = min + 10`, so `min < max`; the entry of level `L + 1` starts where the
entry of level `L` ends; and `min` and `max` are strictly increasing in the
level. -/
theorem generateLevelConfig_entries (start : Int) (L : Nat) (h1 : 1 ≤ L) (h10 : L ≤ 10) :
    ∃ c, (generateLevelConfig start).get? L = some c ∧
      c.min = start + (Int.ofNat L - 1) * 10 ∧ c.max = c.min + 10 ∧ c.min < c.max ∧
      (L < 10 → ∃ c', (generateLevelConfig start).get? (L + 1) = some c' ∧ c'.min = c.max) ∧
      (∀ (L' : Nat) (c' : LevelEntry), L < L' →
        (generateLevelConfig start).get? L' = some c' → c.min < c'.min ∧ c.max < c'.max) := by
  refine ⟨_, generateLevelConfig_get?_some start L h1 h10, rfl, rfl, ?_, ?_, ?_⟩
  · simp only []; omega
  · intro hL
    refine ⟨_, generateLevelConfig_get?_some start (L + 1) (by omega) (by omega), ?_⟩
    simp only [Int.ofNat_eq_coe, Nat.cast_add, Nat.cast_one]
    omega
  · intro L' c' hlt hc'
    rw [generateLevelConfig_get? start L' c' hc']
    simp only [Int.ofNat_eq_coe]
    omega

/-- C15, witness: starting number 21, level 3: the entry is 41 to 51. -/
theorem generateLevelConfig_entries_witness :
    (1 ≤ 3 ∧ 3 ≤ 10) ∧
    (generateLevelConfig 21).get? 3 = some { min := 41, max := 51 } ∧
    ∃ c, (generateLevelConfig 21).get? 3 = some c ∧
      c.min = 21 + (Int.ofNat 3 - 1) * 10 ∧ c.max = c.min + 10 ∧ c.min < c.max ∧
      (3 < 10 → ∃ c', (generateLevelConfig 21).get? (3 + 1) = some c' ∧ c'.min = c.max) ∧
      (∀ (L' : Nat) (c' : LevelEntry), 3 < L' →
        (generateLevelConfig 21).get? L' = some c' → c.min < c'.min ∧ c.max < c'.max) :=
  ⟨by decide, by decide, generateLevelConfig_entries 21 3 (by decide) (by decide)⟩

/-- C18: in random-number mode (the mode draw is not below 0.7), for every entry
`{min, max}` of a configuration made by `generateLevelConfig` and every stream of
draws, the candidate question has `min ≤ num1 ≤ max - 5`,
`1 ≤ num2 ≤ min(6, max - num1)` and `answer = num1 + num2`. -/
theorem random_mode_operands (start : Int) (L : Nat) (c : LevelEntry)
    (currentLevel bodyLength : Nat) (rnd : Nat → Draw) (i : Nat)
    (hc : (generateLevelConfig start).get? L = some c)
    (hmode : (rnd i).below 7 10 = false) :
    c.min ≤ (genCandidate c currentLevel bodyLength rnd i).1.num1 ∧
      (genCandidate c currentLevel bodyLength rnd i).1.num1 ≤ c.max - 5 ∧
      1 ≤ (genCandidate c currentLevel bodyLength rnd i).1.num2 ∧
      (genCandidate c currentLevel bodyLength rnd i).1.num2
        ≤ min 6 (c.max - (genCandidate c currentLevel bodyLength rnd i).1.num1) ∧
      (genCandidate c currentLevel bodyLength rnd i).1.answer
        = (genCandidate c currentLevel bodyLength rnd i).1.num1
          + (genCandidate c currentLevel bodyLength rnd i).1.num2 := by
  have hw : c.max = c.min + 10 := by
    rw [generateLevelConfig_get? start L c hc]
  unfold genCandidate
  simp only [hmode, Bool.false_eq_true, if_false]
  have h1 : 0 < c.max - c.min + 1 := by omega
  have e1 := (rnd (i + 1)).floorMul_nonneg _ h1.le
  have e2 := (rnd (i + 1)).floorMul_lt _ h1
  generalize (rnd (i + 1)).floorMul (c.max - c.min + 1) = a at *
  have h3 : 0 < max c.min (c.max - 5) - c.min + 1 := by omega
  have e3 := (rnd (i + 2)).floorMul_nonneg _ h3.le
  have e4 := (rnd (i + 2)).floorMul_lt _ h3
  generalize (rnd (i + 2)).floorMul (max c.min (c.max - 5) - c.min + 1) = b at *
  by_cases hre : a + c.min > max c.min (c.max - 5)
  · simp only [hre, decide_True, if_true]
    have h5 : 0 < min 6 (c.max - (b + c.min)) := by omega
    have e5 := (rnd (i + 3)).floorMul_nonneg _ h5.le
    have e6 := (rnd (i + 3)).floorMul_lt _ h5
    generalize (rnd (i + 3)).floorMul (min 6 (c.max - (b + c.min))) = n at *
    split_ifs <;> refine ⟨?_, ?_, ?_, ?_, ?_⟩ <;> simp only [] <;> omega
  · simp only [hre, decide_False, Bool.false_eq_true, if_false]
    have h5 : 0 < min 6 (c.max - (a + c.min)) := by omega
    have e5 := (rnd (i + 2)).floorMul_nonneg _ h5.le
    have e6 := (rnd (i + 2)).floorMul_lt _ h5
    generalize (rnd (i + 2)).floorMul (min 6 (c.max - (a + c.min))) = n at *
    split_ifs <;> refine ⟨?_, ?_, ?_, ?_, ?_⟩ <;> simp only [] <;> omega

/-- C18, witness: starting number 21, level 1 (21 to 31), every draw 3/4: the
first `num1` is 29 and is redrawn as 25, `num2` is 5. -/
theorem random_mode_operands_witness :
    (generateLevelConfig 21).get? 1 = some { min := 21, max := 31 } ∧
    (highDraws 0).below 7 10 = false ∧
    (genCandidate { min := 21, max := 31 } 1 5 highDraws 0).1
      = { num1 := 25, num2 := 5, answer := 30 } ∧
    ((21 : Int) ≤ (genCandidate { min := 21, max := 31 } 1 5 highDraws 0).1.num1 ∧
      (genCandidate { min := 21, max := 31 } 1 5 highDraws 0).1.num1 ≤ 31 - 5 ∧
      1 ≤ (genCandidate { min := 21, max := 31 } 1 5 highDraws 0).1.num2 ∧
      (genCandidate { min := 21, max := 31 } 1 5 highDraws 0).1.num2
        ≤ min 6 (31 - (genCandidate { min := 21, max := 31 } 1 5 highDraws 0).1.num1) ∧
      (genCandidate { min := 21, max := 31 } 1 5 highDraws 0).1.answer
        = (genCandidate { min := 21, max := 31 } 1 5 highDraws 0).1.num1
          + (genCandidate { min := 21, max := 31 } 1 5 highDraws 0).1.num2) :=
  ⟨by decide, by decide, by decide,
    random_mode_operands 21 1 { min := 21, max := 31 } 1 5 highDraws 0 (by decide) (by decide)⟩

theorem isBlockCollision_iff (x1 y1 x2 y2 : ℚ) :
    isBlockCollision x1 y1 x2 y2 = true ↔ |x1 - x2| < 28 ∧ |y1 - y2| < 28 := by
  have ht : overlapThreshold = 28 := by
    unfold overlapThreshold gridSize
    norm_num
  simp [isBlockCollision, ht]

/-- C19, failing input: the head at (80, 80) and a block that has drifted to
(100, 80).  The blocks overlap by 20 of 40 pixels along x, less than 70 % of
`gridSize` (28), and `isBlockCollision` returns true.  For all positions it
returns true exactly when the overlap along each axis is more than 30 % of
`gridSize` (12): the threshold `gridSize * 0.7` bounds the distance, not the
overlap. -/
theorem isBlockCollision_at_half_overlap :
    isBlockCollision 80 80 100 80 = true ∧
    overlapAlongAxis 80 100 = 20 ∧
    overlapAlongAxis 80 100 < (7 / 10) * (gridSize : ℚ) ∧
    ∀ x1 y1 x2 y2 : ℚ,
      (isBlockCollision x1 y1 x2 y2 = true ↔
        (3 / 10) * (gridSize : ℚ) < overlapAlongAxis x1 x2 ∧
        (3 / 10) * (gridSize : ℚ) < overlapAlongAxis y1 y2) := by
  have hg : ((gridSize : Int) : ℚ) = 40 := by
    unfold gridSize
    norm_num
  refine ⟨?_, ?_, ?_, ?_⟩
  · rw [isBlockCollision_iff]
    norm_num [abs_lt]
  · unfold overlapAlongAxis
    rw [hg]
    norm_num [abs_of_neg]
  · unfold overlapAlongAxis
    rw [hg]
    norm_num [abs_of_neg]
  · intro x1 y1 x2 y2
    rw [isBlockCollision_iff]
    unfold overlapAlongAxis
    rw [hg]
    constructor
    · rintro ⟨hx, hy⟩
      constructor <;> linarith
    · rintro ⟨hx, hy⟩
      constructor <;> linarith

/-- C20, failing input: the offset 3.  For every draw the first strategy returns
the correct answer plus `floor(r * 6) - 3`, which lies between -3 and 2; each
of -3, …, 2 is produced by a draw, and 3 is produced by none. -/
theorem first_strategy_offset_range (c : LevelEntry) (q : Question) :
    (∀ d : Draw, -3 ≤ wrongAnswerStrategy 0 c q d - q.answer ∧
      wrongAnswerStrategy 0 c q d - q.answer ≤ 2) ∧
    (∀ k : Int, -3 ≤ k → k ≤ 2 → ∃ d : Draw, wrongAnswerStrategy 0 c q d - q.answer = k) ∧
    ¬ ∃ d : Draw, wrongAnswerStrategy 0 c q d - q.answer = 3 := by
  have hs : ∀ d : Draw, wrongAnswerStrategy 0 c q d = q.answer + (d.floorMul 6 - 3) := by
    intro d
    unfold wrongAnswerStrategy
    rw [if_pos rfl]
  have hr : ∀ d : Draw, -3 ≤ wrongAnswerStrategy 0 c q d - q.answer ∧
      wrongAnswerStrategy 0 c q d - q.answer ≤ 2 := by
    intro d
    have a := d.floorMul_nonneg 6 (by norm_num)
    have b := d.floorMul_lt 6 (by norm_num)
    rw [hs d]
    constructor <;> omega
  refine ⟨hr, ?_, ?_⟩
  · intro k h1 h2
    refine ⟨{ num := (k + 3).toNat, den := 6, num_lt := by omega }, ?_⟩
    rw [hs]
    have : ({ num := (k + 3).toNat, den := 6, num_lt := by omega } : Draw).floorMul 6 = k + 3 := by
      unfold Draw.floorMul
      simp only [Int.ofNat_eq_coe]
      rw [Int.toNat_of_nonneg (by omega)]
      norm_num
    rw [this]
    omega
  · rintro ⟨d, hd⟩
    have := (hr d).2
    omega


/-! ## After the win, the body limit and the first operand: the claims -/

set_option maxRecDepth 100000

theorem wonState_run :
    init 820 700 1 zeroDraws = .done firstState ∧
    correctRun 51 (fun _ => zeroDraws) 100 firstState = some wonState ∧
    wonState.gameRunning = false ∧ wonState.gameWinCalls = 1 := by
  have hinit : init 820 700 1 zeroDraws = .done firstState := by decide
  have h0 := init_AfterCorrect _ _ _ _ _ hinit
  obtain ⟨s, hs⟩ := correctRun_zeroDraws firstState h0 100 (le_refl _)
  have hw : correctRun 51 (fun _ => zeroDraws) 100 firstState = some wonState :=
    eq_some_getD _ firstState (by rw [hs]; rfl)
  obtain ⟨_, _, _, _, _, b⟩ := correctRun_inv 51 (fun _ => zeroDraws) firstState h0 100
    (le_refl _) wonState hw
  obtain ⟨b1, _, _, b4⟩ := b rfl
  exact ⟨hinit, hw, b1, b4⟩

theorem wonState_question :
    wonState.currentQuestion = some { num1 := 199, num2 := 1, answer := 200 } ∧
    wonState.usedQuestions.length = 100 := by
  refine ⟨by decide, by decide⟩

theorem wonState_resize :
    ((Event.resize 1020 700 zeroDraws).next 1 wonState).map
        (fun s => (s.gameRunning, s.currentQuestion, s.usedQuestions.length))
      = some (false, some { num1 := 201, num2 := 1, answer := 202 }, 101) := by
  decide

/-- C13, failing input: the game is won (100 correct answers from the state
after `init`, all draws 0) and then the window is resized to 1020 × 700.  In the
won state `update` returns with the state unchanged, but the resize listener
calls `generateQuestion` without looking at `gameRunning`: the current question
changes from 199 + 1 to 201 + 1 and the history grows from 100 to 101 keys. -/
theorem question_generated_after_win :
    init 820 700 1 zeroDraws = .done firstState ∧
    correctRun 51 (fun _ => zeroDraws) 100 firstState = some wonState ∧
    wonState.gameRunning = false ∧ wonState.gameWinCalls = 1 ∧
    (∀ hitCorrect hitWrong : Bool, update hitCorrect hitWrong wonState = .done wonState) ∧
    wonState.currentQuestion = some { num1 := 199, num2 := 1, answer := 200 } ∧
    wonState.usedQuestions.length = 100 ∧
    ((Event.resize 1020 700 zeroDraws).next 1 wonState).map
        (fun s => (s.gameRunning, s.currentQuestion, s.usedQuestions.length))
      = some (false, some { num1 := 201, num2 := 1, answer := 202 }, 101) := by
  obtain ⟨h1, h2, h3, h4⟩ := wonState_run
  exact ⟨h1, h2, h3, h4, fun a b => update_stopped a b wonState h3,
    wonState_question.1, wonState_question.2, wonState_resize⟩

theorem buildBody_length (centerX centerY : Int) (n : Nat) :
    ∀ i, (buildBody centerX centerY n i).length = n := by
  induction n with
  | zero => intro i; rfl
  | succ m ih => intro i; simp [buildBody, ih]

theorem restartGame_snake (fuel : Nat) (rnd : Nat → Draw) (s s' : State)
    (h : (restartGame fuel rnd s).final = some s') :
    s'.gameRunning = true ∧
      s'.snake.body.length = (min s.selectedStartingNumber 1000).toNat := by
  have hl : (freshSnake s { x := gridSize, y := 0 }).body.length
      = (min s.selectedStartingNumber 1000).toNat := by
    unfold freshSnake
    simp only [buildBody_length]
  rcases restartGame_final fuel rnd s s' h with h | ⟨q, w, h⟩ <;> subst h
  · exact ⟨rfl, hl⟩
  · exact ⟨rfl, hl⟩

/-- A tick with the head on the wrong block only makes the body one longer. -/
theorem update_wrong_length (s : State) (hrun : s.gameRunning = true)
    (hbody : s.snake.body ≠ []) :
    ∃ s', update false true s = .done s' ∧
      s'.snake.body.length = s.snake.body.length + 1 := by
  obtain ⟨x, rest, hx⟩ := List.exists_cons_of_ne_nil hbody
  refine ⟨_, update_miss_eq true s hrun x rest hx, ?_⟩
  simp [hx]

/-- C16, failing input: the starting number is changed to 1000 (all draws 0), so
that `restartGame` builds 1000 segments, and one tick follows with the head on
the wrong block.  The tick puts the new head in front and returns before
`snake.body.pop()`: the state is reachable and its body has 1001 segments. -/
theorem body_longer_than_limit :
    init 820 700 1 zeroDraws = .done firstState ∧
    (Event.changeStart 1000 zeroDraws).next 51 firstState = some thousandState ∧
    thousandState.snake.body.length = 1000 ∧
    ∃ s, (Event.tick false true).next 51 thousandState = some s ∧ Reachable s ∧
      s.snake.body.length = 1001 := by
  have hinit : init 820 700 1 zeroDraws = .done firstState := by decide
  have hsome : ((Event.changeStart 1000 zeroDraws).next 51 firstState).isSome = true := by
    obtain ⟨s', hs'⟩ := restartGame_zeroDraws
      { firstState with selectedStartingNumber := 1000,
                        levelConfig := generateLevelConfig 1000, usedQuestions := [] }
    have : (Event.changeStart 1000 zeroDraws).next 51 firstState = some s' := hs'
    rw [this]
    rfl
  have hch := eq_some_getD _ firstState hsome
  have hch' : (Event.changeStart 1000 zeroDraws).next 51 firstState = some thousandState := hch
  have hres : (restartGame 51 zeroDraws
      { firstState with selectedStartingNumber := 1000,
                        levelConfig := generateLevelConfig 1000, usedQuestions := [] }).final
      = some thousandState := hch'
  obtain ⟨hrun, hlen⟩ := restartGame_snake _ _ _ _ hres
  have hlen' : thousandState.snake.body.length = 1000 := by
    rw [hlen]
    decide
  have hne : thousandState.snake.body ≠ [] := by
    intro he
    rw [he] at hlen'
    simp at hlen'
  obtain ⟨s, hs, hsl⟩ := update_wrong_length thousandState hrun hne
  have hnext : (Event.tick false true).next 51 thousandState = some s := by
    simp only [Event.next, Event.run, Option.some_bind, hs, Outcome.final]
  refine ⟨hinit, hch', hlen', s, hnext, ?_, by rw [hsl, hlen']⟩
  exact Reachable.step 51 _ thousandState s
    (Reachable.step 51 _ firstState thousandState
      (Reachable.start 820 700 1 zeroDraws firstState hinit) hch') hnext

/-- C17, failing input: the page loads with all draws 0 (question 1 + 1 = 2), the
head meets the correct block, and the `generateQuestion` callback runs in
snake-length mode.  The virtual length is 1 + 1 = 2, the body has 3 segments
(the new head and one tail copy), and the new question is 3 + 1 = 4: `num1` is
`snake.body.length`, not `snake.virtualLength`. -/
theorem question_uses_body_length :
    init 820 700 1 zeroDraws = .done firstState ∧
    firstState.snake.virtualLength = some 1 ∧ firstState.snake.body.length = 1 ∧
    (zeroDraws 0).below 7 10 = true ∧
    (runEvents 1 answerThenQuestion firstState).map
        (fun s => (s.currentQuestion, s.snake.virtualLength, s.snake.body.length))
      = some (some { num1 := 3, num2 := 1, answer := 4 }, some 2, 3) := by
  decide


/-! ## The ranges of the counters: the claims -/

theorem answerCorrect_setup (s : State) (body : List Segment) :
    (answerCorrect s body).levelConfig = s.levelConfig ∧
      (answerCorrect s body).selectedStartingNumber = s.selectedStartingNumber := by
  unfold answerCorrect levelComplete gameWin
  simp only []
  split_ifs <;> exact ⟨rfl, rfl⟩

/-- Every event keeps `levelConfig` equal to the configuration of the selected
starting number. -/
theorem levelConfig_step (fuel : Nat) (e : Event) (s s' : State)
    (hc : s.levelConfig = generateLevelConfig s.selectedStartingNumber)
    (h : e.next fuel s = some s') :
    s'.levelConfig = generateLevelConfig s'.selectedStartingNumber := by
  cases e with
  | tick hitCorrect hitWrong =>
    simp only [Event.next, Event.run, Option.some_bind] at h
    cases hitCorrect with
    | false =>
      obtain ⟨body, hb⟩ := update_miss hitWrong s s' h
      subst hb; exact hc
    | true =>
      by_cases hr : s.gameRunning = true
      · by_cases hb : s.snake.body = []
        · rw [update_headless _ _ s hr hb] at h
          simp only [Outcome.final, Option.some.injEq] at h
          subst h; exact hc
        · obtain ⟨x, rest, hx⟩ := List.exists_cons_of_ne_nil hb
          rw [update_hit_eq _ s hr x rest hx] at h
          simp only [Outcome.final, Option.some.injEq] at h
          subst h
          obtain ⟨a, b⟩ := answerCorrect_setup s (nextHead s x :: x :: rest)
          rw [a, b]; exact hc
      · rw [update_stopped _ _ s (by simpa using hr)] at h
        simp only [Outcome.final, Option.some.injEq] at h
        subst h; exact hc
  | fireGenerate rnd =>
    unfold Event.next Event.run at h
    simp only [] at h
    split_ifs at h
    · simp at h
    · simp only [Option.some_bind] at h
      rcases generateQuestion_final _ _ _ _ h with h | ⟨q, w, h⟩ <;> subst h <;> exact hc
  | fireNextLevel rnd =>
    unfold Event.next Event.run nextLevel at h
    simp only [] at h
    split_ifs at h
    · simp at h
    · simp only [Option.some_bind] at h
      rcases generateQuestion_final _ _ _ _ h with h | ⟨q, w, h⟩ <;> subst h <;> exact hc
  | restart rnd =>
    simp only [Event.next, Event.run, Option.some_bind] at h
    rcases restartGame_final _ _ _ _ h with h | ⟨q, w, h⟩ <;> subst h <;> exact hc
  | changeStart value rnd =>
    simp only [Event.next, Event.run, Option.some_bind, changeStartingNumber] at h
    rcases restartGame_final _ _ _ _ h with h | ⟨q, w, h⟩ <;> subst h <;> rfl
  | key k =>
    simp only [Event.next, Event.run, Option.some_bind, Outcome.final, Option.some.injEq] at h
    subst h
    unfold handleKeyPress
    split_ifs
    · exact hc
    · cases k <;> simp only [] <;> split_ifs <;> exact hc
  | resize innerWidth innerHeight rnd =>
    simp only [Event.next, Event.run, Option.some_bind, onResize] at h
    rcases generateQuestion_final _ _ _ _ h with h | ⟨q, w, h⟩ <;> subst h <;> exact hc
  | stop =>
    simp only [Event.next, Event.run, Option.some_bind, Outcome.final, Option.some.injEq] at h
    subst h
    exact hc

/-- The ranges of `ProgressInRange` only depend on the level, on
`questionsInLevel` and on the number of pending `nextLevel` timers. -/
theorem ranges_of_same (s s' : State) (h2 : s'.currentLevel = s.currentLevel)
    (h3 : s'.questionsInLevel = s.questionsInLevel)
    (h5 : s'.pendingNextLevel = s.pendingNextLevel)
    (hi : s.currentLevel ≤ 10 ∧ s.questionsInLevel ≤ questionsPerLevel ∧
      (0 < s.pendingNextLevel → s.currentLevel < 10)) :
    s'.currentLevel ≤ 10 ∧ s'.questionsInLevel ≤ questionsPerLevel ∧
      (0 < s'.pendingNextLevel → s'.currentLevel < 10) := by
  rw [h2, h3, h5]
  exact hi

/-- The step of the invariant behind C14. -/
theorem ProgressInRange_step (fuel : Nat) (e : Event) (s s' : State)
    (hi : ProgressInRange s) (hg : e.answersOrResets = true → s.pendingNextLevel = 0)
    (h : e.next fuel s = some s') : ProgressInRange s' := by
  obtain ⟨ic, i1, i2, i3, i4⟩ := hi
  refine ⟨CountersInStep_step fuel e s s' ic hg h, ?_⟩
  have hcfg := levelConfig_step fuel e s s' i4 h
  suffices hr : s'.currentLevel ≤ 10 ∧ s'.questionsInLevel ≤ questionsPerLevel ∧
      (0 < s'.pendingNextLevel → s'.currentLevel < 10) from ⟨hr.1, hr.2.1, hr.2.2, hcfg⟩
  have same : s'.progress = s.progress →
      s'.currentLevel ≤ 10 ∧ s'.questionsInLevel ≤ questionsPerLevel ∧
        (0 < s'.pendingNextLevel → s'.currentLevel < 10) := by
    intro hp
    simp only [State.progress, Prod.mk.injEq] at hp
    exact ranges_of_same s s' hp.2.1 hp.2.2.1 hp.2.2.2.2 ⟨i1, i2, i3⟩
  cases e with
  | tick hitCorrect hitWrong =>
    simp only [Event.next, Event.run, Option.some_bind] at h
    cases hitCorrect with
    | false => exact same (update_miss_progress _ _ _ h)
    | true =>
      have hp : s.pendingNextLevel = 0 := hg rfl
      by_cases hr : s.gameRunning = true
      · by_cases hb : s.snake.body = []
        · rw [update_headless _ _ s hr hb] at h
          simp only [Outcome.final, Option.some.injEq] at h
          subst h; exact ⟨i1, i2, i3⟩
        · obtain ⟨x, rest, hx⟩ := List.exists_cons_of_ne_nil hb
          rw [update_hit_eq _ s hr x rest hx] at h
          simp only [Outcome.final, Option.some.injEq] at h
          subst h
          obtain ⟨h1, _, h3, _⟩ := answerCorrect_fields s (nextHead s x :: x :: rest) (by simp)
          obtain ⟨p1, p2, p3⟩ := answerCorrect_progress s (nextHead s x :: x :: rest)
          have hq := ic.2.2.1 hp hr
          rw [h1, h3]
          refine ⟨i1, by omega, ?_⟩
          intro hpos
          by_contra hl
          by_cases hge : questionsPerLevel ≤ s.questionsInLevel + 1
          · have := (p1 hge (by omega)).2.2.1
            omega
          · have := (p3 (by omega)).2.2.1
            omega
      · rw [update_stopped _ _ s (by simpa using hr)] at h
        simp only [Outcome.final, Option.some.injEq] at h
        subst h; exact ⟨i1, i2, i3⟩
  | fireGenerate rnd =>
    obtain ⟨_, a, b, c, d, _, f, _⟩ := fireGenerate_next fuel rnd s s' h
    exact ranges_of_same s s' b c f ⟨i1, i2, i3⟩
  | fireNextLevel rnd =>
    obtain ⟨hp, a, b, c, d, _, f, _⟩ := fireNextLevel_next fuel rnd s s' h
    have hl := i3 hp
    have h1 := (ic.2.2.2 hp).1
    rw [b, c, f]
    exact ⟨by omega, by omega, fun hh => by omega⟩
  | restart rnd =>
    simp only [Event.next, Event.run, Option.some_bind] at h
    have hp : s.pendingNextLevel = 0 := hg rfl
    have := restartGame_progress fuel rnd s s' h
    simp only [State.progress, Prod.mk.injEq] at this
    obtain ⟨a, b, c, d, f⟩ := this
    rw [b, c, f]
    exact ⟨by omega, by omega, fun hh => by omega⟩
  | changeStart value rnd =>
    simp only [Event.next, Event.run, Option.some_bind] at h
    have hp : s.pendingNextLevel = 0 := hg rfl
    have := changeStartingNumber_progress value fuel rnd s s' h
    simp only [State.progress, Prod.mk.injEq] at this
    obtain ⟨a, b, c, d, f⟩ := this
    rw [b, c, f]
    exact ⟨by omega, by omega, fun hh => by omega⟩
  | key k =>
    simp only [Event.next, Event.run, Option.some_bind, Outcome.final, Option.some.injEq] at h
    subst h
    exact same (handleKeyPress_progress k s)
  | resize innerWidth innerHeight rnd =>
    simp only [Event.next, Event.run, Option.some_bind] at h
    exact same (onResize_progress _ _ _ _ _ _ h)
  | stop =>
    simp only [Event.next, Event.run, Option.some_bind, Outcome.final, Option.some.injEq] at h
    subst h
    exact ⟨i1, i2, i3⟩

theorem OrderlyReachable_range (s : State) (h : OrderlyReachable s) : ProgressInRange s := by
  induction h with
  | start innerWidth innerHeight fuel rnd s hs =>
    refine ⟨OrderlyReachable_inv s (OrderlyReachable.start _ _ _ _ s hs), ?_⟩
    obtain ⟨hp, _⟩ := init_progress _ _ _ _ _ hs
    simp only [State.progress, Prod.mk.injEq] at hp
    obtain ⟨a, b, c, d, f⟩ := hp
    rw [init_eq_generateQuestion] at hs
    have hf : (generateQuestion fuel rnd
        { startState innerWidth innerHeight with
          currentLevel := 1, questionsInLevel := 0, totalQuestionsAnswered := 0 }).final
        = some s := by rw [hs]; rfl
    rw [b, c, f]
    refine ⟨by omega, by omega, fun hh => by omega, ?_⟩
    rcases generateQuestion_final _ _ _ _ hf with h | ⟨q, w, h⟩ <;> subst h <;> rfl
  | step fuel e s s' _ hg hn ih => exact ProgressInRange_step fuel e s s' ih hg hn

/-- C14, counterexample: ten correct answers at level 1 and an eleventh one
before the `nextLevel` timer fires (the head has gone round one grid square).
The state is reachable, two `nextLevel` timers are pending, and
`questionsInLevel` is 11, above `questionsPerLevel = 10`. -/
theorem questionsInLevel_above_ten :
    ∃ s, init 820 700 1 zeroDraws = .done firstState ∧
      runEvents 1 elevenAnswers firstState = some s ∧ Reachable s ∧
      s.currentLevel = 1 ∧ s.pendingNextLevel = 2 ∧ s.questionsInLevel = 11 ∧
      questionsPerLevel < s.questionsInLevel := by
  have hinit : init 820 700 1 zeroDraws = .done firstState := by decide
  have hsome : (runEvents 1 elevenAnswers firstState).isSome = true := by decide
  have hrun := eq_some_getD _ firstState hsome
  have hval : ((runEvents 1 elevenAnswers firstState).getD firstState).progress
      = (true, 1, 11, 11, 2) := by decide
  simp only [State.progress, Prod.mk.injEq] at hval
  obtain ⟨_, h2, h3, _, h5⟩ := hval
  refine ⟨_, hinit, hrun, ?_, h2, h5, h3, ?_⟩
  · exact Reachable_runEvents 1 elevenAnswers firstState _
      (Reachable.start 820 700 1 zeroDraws firstState hinit) hrun
  · rw [h3]; decide

/-- C14, amended: in every state reachable from the state after `init` by
transitions among which a correct-answer tick, a restart or a change of the
starting number happens only while no `nextLevel` timer is pending,
`currentLevel` is between 1 and 10, `questionsInLevel` is at most 10,
`totalQuestionsAnswered` is at most 100, `levelConfig[currentLevel]` is defined,
and so is `levelConfig[currentLevel + 1]` while a `nextLevel` timer is pending. -/
theorem progress_in_range_when_orderly (s : State) (h : OrderlyReachable s) :
    1 ≤ s.currentLevel ∧ s.currentLevel ≤ 10 ∧
      s.questionsInLevel ≤ questionsPerLevel ∧
      s.totalQuestionsAnswered ≤ totalQuestions ∧
      (∃ c, s.levelConfig.get? s.currentLevel = some c) ∧
      (0 < s.pendingNextLevel → ∃ c, s.levelConfig.get? (s.currentLevel + 1) = some c) := by
  obtain ⟨⟨c1, c2, _, _⟩, r1, r2, r3, r4⟩ := OrderlyReachable_range s h
  unfold questionsPerLevel at c1 r2
  refine ⟨c2, r1, r2, ?_, ?_, ?_⟩
  · unfold totalQuestions
    have : (s.currentLevel - 1) * 10 ≤ 90 := by omega
    omega
  · rw [r4]
    exact ⟨_, generateLevelConfig_get?_some _ _ c2 r1⟩
  · intro hp
    have := r3 hp
    rw [r4]
    exact ⟨_, generateLevelConfig_get?_some _ _ (by omega) (by omega)⟩

/-- C14, witness: the state at the start of level 2, after ten correct answers
each followed by the callback it scheduled. -/
theorem progress_in_range_when_orderly_witness :
    OrderlyReachable levelUpState ∧ levelUpState.currentLevel = 2 ∧
      (1 ≤ levelUpState.currentLevel ∧ levelUpState.currentLevel ≤ 10 ∧
        levelUpState.questionsInLevel ≤ questionsPerLevel ∧
        levelUpState.totalQuestionsAnswered ≤ totalQuestions ∧
        (∃ c, levelUpState.levelConfig.get? levelUpState.currentLevel = some c) ∧
        (0 < levelUpState.pendingNextLevel →
          ∃ c, levelUpState.levelConfig.get? (levelUpState.currentLevel + 1) = some c)) :=
  ⟨OrderlyReachable_runOrderly 51 levelUpEvents firstState levelUpState
      (OrderlyReachable.start 820 700 1 zeroDraws firstState (by decide))
      (eq_some_getD _ firstState (by decide)),
    by decide,
    progress_in_range_when_orderly levelUpState
      (OrderlyReachable_runOrderly 51 levelUpEvents firstState levelUpState
        (OrderlyReachable.start 820 700 1 zeroDraws firstState (by decide))
        (eq_some_getD _ firstState (by decide)))⟩


/-! ## Snake-length mode, the addend and the body length per tick: the claims -/

/-- C21: in snake-length mode (the mode draw is below 0.7), for every level and
every entry with `max = min + 10`, when the snake length `n` used as `num1`
satisfies `min ≤ n < max`, the candidate has `num1 = n` and
`min < answer ≤ max` for every stream of draws; the answer is the sum with the
first `num2`, cut off at `max` (when that sum is above `max` the answer is
exactly `max`). -/
theorem snake_mode_answer_range (c : LevelEntry) (currentLevel bodyLength : Nat)
    (rnd : Nat → Draw) (i : Nat)
    (hw : c.max = c.min + 10)
    (hlo : c.min ≤ Int.ofNat bodyLength) (hhi : Int.ofNat bodyLength < c.max)
    (hmode : (rnd i).below 7 10 = true) :
    (genCandidate c currentLevel bodyLength rnd i).1.num1 = Int.ofNat bodyLength ∧
      c.min < (genCandidate c currentLevel bodyLength rnd i).1.answer ∧
      (genCandidate c currentLevel bodyLength rnd i).1.answer ≤ c.max ∧
      (genCandidate c currentLevel bodyLength rnd i).1.answer
        = min (Int.ofNat bodyLength
                + snakeAddend c currentLevel (Int.ofNat bodyLength) (rnd (i + 1))) c.max ∧
      (c.max < Int.ofNat bodyLength
          + snakeAddend c currentLevel (Int.ofNat bodyLength) (rnd (i + 1)) →
        (genCandidate c currentLevel bodyLength rnd i).1.answer = c.max) := by
  have a3 := (rnd (i + 1)).floorMul_nonneg 3 (by norm_num)
  have b3 := (rnd (i + 1)).floorMul_lt 3 (by norm_num)
  have a4 := (rnd (i + 1)).floorMul_nonneg 4 (by norm_num)
  have b4 := (rnd (i + 1)).floorMul_lt 4 (by norm_num)
  have hm : 0 < min 6 (c.max - Int.ofNat bodyLength) := by omega
  have am := (rnd (i + 1)).floorMul_nonneg _ hm.le
  have bm := (rnd (i + 1)).floorMul_lt _ hm
  unfold genCandidate snakeAddend
  simp only [hmode, if_true]
  generalize (rnd (i + 1)).floorMul 3 = x3 at *
  generalize (rnd (i + 1)).floorMul 4 = x4 at *
  generalize (rnd (i + 1)).floorMul (min 6 (c.max - Int.ofNat bodyLength)) = xm at *
  split_ifs <;> refine ⟨?_, ?_, ?_, ?_, ?_⟩ <;> simp only [] <;> omega

/-- C21, witness: level 1 (1 to 11), a snake of 10 segments, every draw 1/2: the
first `num2` is 3, the sum 13 is above 11, and the answer is 11. -/
theorem snake_mode_answer_range_witness :
    ((11 : Int) = 1 + 10 ∧ (1 : Int) ≤ Int.ofNat 10 ∧ Int.ofNat 10 < (11 : Int) ∧
      ((fun _ => halfDraw) 0 : Draw).below 7 10 = true) ∧
    (genCandidate { min := 1, max := 11 } 1 10 (fun _ => halfDraw) 0).1
      = { num1 := 10, num2 := 1, answer := 11 } ∧
    snakeAddend { min := 1, max := 11 } 1 (Int.ofNat 10) halfDraw = 3 ∧
    ((genCandidate { min := 1, max := 11 } 1 10 (fun _ => halfDraw) 0).1.num1 = Int.ofNat 10 ∧
      (1 : Int) < (genCandidate { min := 1, max := 11 } 1 10 (fun _ => halfDraw) 0).1.answer ∧
      (genCandidate { min := 1, max := 11 } 1 10 (fun _ => halfDraw) 0).1.answer ≤ 11 ∧
      (genCandidate { min := 1, max := 11 } 1 10 (fun _ => halfDraw) 0).1.answer
        = min (Int.ofNat 10
                + snakeAddend { min := 1, max := 11 } 1 (Int.ofNat 10)
                    ((fun _ => halfDraw) (0 + 1))) 11 ∧
      ((11 : Int) < Int.ofNat 10
          + snakeAddend { min := 1, max := 11 } 1 (Int.ofNat 10) ((fun _ => halfDraw) (0 + 1)) →
        (genCandidate { min := 1, max := 11 } 1 10 (fun _ => halfDraw) 0).1.answer = 11)) :=
  ⟨by decide, by decide, by decide,
    snake_mode_answer_range { min := 1, max := 11 } 1 10 (fun _ => halfDraw) 0
      (by decide) (by decide) (by decide) (by decide)⟩


theorem genCandidate_num2_range (c : LevelEntry) (lvl len : Nat) (rnd : Nat → Draw) (i : Nat)
    (hw : c.max = c.min + 10) :
    1 ≤ (genCandidate c lvl len rnd i).1.num2 ∧ (genCandidate c lvl len rnd i).1.num2 ≤ 6 := by
  have a3 := (rnd (i + 1)).floorMul_nonneg 3 (by norm_num)
  have b3 := (rnd (i + 1)).floorMul_lt 3 (by norm_num)
  have a4 := (rnd (i + 1)).floorMul_nonneg 4 (by norm_num)
  have b4 := (rnd (i + 1)).floorMul_lt 4 (by norm_num)
  have c3 := (rnd (i + 2)).floorMul_nonneg 3 (by norm_num)
  have d3 := (rnd (i + 2)).floorMul_lt 3 (by norm_num)
  have am : 0 < min 6 (c.max - Int.ofNat len) →
      0 ≤ (rnd (i + 1)).floorMul (min 6 (c.max - Int.ofNat len)) ∧
      (rnd (i + 1)).floorMul (min 6 (c.max - Int.ofNat len)) < min 6 (c.max - Int.ofNat len) :=
    fun h => ⟨(rnd (i + 1)).floorMul_nonneg _ h.le, (rnd (i + 1)).floorMul_lt _ h⟩
  have h1 : 0 < c.max - c.min + 1 := by omega
  have e1 := (rnd (i + 1)).floorMul_nonneg _ h1.le
  have e2 := (rnd (i + 1)).floorMul_lt _ h1
  have h3 : 0 < max c.min (c.max - 5) - c.min + 1 := by omega
  have e3 := (rnd (i + 2)).floorMul_nonneg _ h3.le
  have e4 := (rnd (i + 2)).floorMul_lt _ h3
  by_cases hmode : (rnd i).below 7 10 = true
  · unfold genCandidate
    simp only [hmode, if_true]
    generalize (rnd (i + 1)).floorMul 3 = x3 at *
    generalize (rnd (i + 1)).floorMul 4 = x4 at *
    generalize (rnd (i + 2)).floorMul 3 = y3 at *
    generalize (rnd (i + 1)).floorMul (min 6 (c.max - Int.ofNat len)) = xm at *
    split_ifs <;> refine ⟨?_, ?_⟩ <;> simp only [] <;> omega
  · unfold genCandidate
    simp only [hmode, Bool.false_eq_true, if_false]
    generalize (rnd (i + 1)).floorMul (c.max - c.min + 1) = a at *
    generalize (rnd (i + 2)).floorMul (max c.min (c.max - 5) - c.min + 1) = b at *
    by_cases hre : a + c.min > max c.min (c.max - 5)
    · simp only [hre, decide_True, if_true]
      have h5 : 0 < min 6 (c.max - (b + c.min)) := by omega
      have e5 := (rnd (i + 3)).floorMul_nonneg _ h5.le
      have e6 := (rnd (i + 3)).floorMul_lt _ h5
      generalize (rnd (i + 3)).floorMul (min 6 (c.max - (b + c.min))) = n at *
      split_ifs <;> refine ⟨?_, ?_⟩ <;> simp only [] <;> omega
    · simp only [hre, decide_False, Bool.false_eq_true, if_false]
      have h5 : 0 < min 6 (c.max - (a + c.min)) := by omega
      have e5 := (rnd (i + 2)).floorMul_nonneg _ h5.le
      have e6 := (rnd (i + 2)).floorMul_lt _ h5
      generalize (rnd (i + 2)).floorMul (min 6 (c.max - (a + c.min))) = n at *
      split_ifs <;> refine ⟨?_, ?_⟩ <;> simp only [] <;> omega

/-- C22: for every starting number, level, snake length and stream of draws, the
question that `generateQuestion` accepts, in either mode, has `1 ≤ num2 ≤ 6`;
so a tick with the head on the correct block, in a running game with that
question current and a positive virtual length `v`, sets the virtual length to
`v + num2`, which is above `v` and at most `v + 6`. -/
theorem accepted_addend_range (start : Int) (fuel : Nat) (rnd : Nat → Draw) (s s' : State)
    (hcfg : s.levelConfig = generateLevelConfig start)
    (hrun : generateQuestion fuel rnd s = .done s') :
    ∃ q, s'.currentQuestion = some q ∧ 1 ≤ q.num2 ∧ q.num2 ≤ 6 ∧
      ∀ (t : State) (hitWrong : Bool) (v : Int),
        t.gameRunning = true → t.snake.body ≠ [] → t.currentQuestion = some q →
        t.snake.virtualLength = some v → 0 < v →
        ∃ t', update true hitWrong t = .done t' ∧
          t'.snake.virtualLength = some (v + q.num2) ∧ v < v + q.num2 ∧ v + q.num2 ≤ v + 6 := by
  obtain ⟨c, r, w, hc, hr, _, hs'⟩ := generateQuestion_done fuel rnd s s' hrun
  have hw : c.max = c.min + 10 := by
    rw [hcfg] at hc
    rw [generateLevelConfig_get? start _ c hc]
  obtain ⟨extra, _, _, hlast, _, _, _, hall⟩ := questionLoop_spec _ _ _ _ _ _ _ _ _ _ hr
  obtain ⟨j, hj⟩ := hall r.question (List.mem_of_getLast?_eq_some hlast)
  have hn := genCandidate_num2_range c s.currentLevel s.snake.body.length rnd j hw
  rw [← hj] at hn
  refine ⟨r.question, by rw [hs']; rfl, hn.1, hn.2, ?_⟩
  intro t hitWrong v ht hb hq hv hpos
  obtain ⟨x, rest, hx⟩ := List.exists_cons_of_ne_nil hb
  refine ⟨_, update_hit_eq hitWrong t ht x rest hx, ?_, by omega, by omega⟩
  obtain ⟨_, _, _, _, _, _, _, h8⟩ :=
    answerCorrect_fields t (nextHead t x :: x :: rest) (by simp)
  rw [h8, hq, hv]
  have : v ≠ 0 := by omega
  simp [virtualOrBody, this]

/-- C22, witness: level 3 with starting number 21 and a snake of 45 segments,
all draws 1/2: the accepted question is 45 + 4 = 49. -/
theorem accepted_addend_range_witness :
    (playingState 21 3 45).levelConfig = generateLevelConfig 21 ∧
    generateQuestion 2 (fun _ => halfDraw) (playingState 21 3 45)
      = .done (withQuestion (playingState 21 3 45) { num1 := 45, num2 := 4, answer := 49 } 46) ∧
    ∃ q, (withQuestion (playingState 21 3 45) { num1 := 45, num2 := 4, answer := 49 } 46).currentQuestion
        = some q ∧ 1 ≤ q.num2 ∧ q.num2 ≤ 6 ∧
      ∀ (t : State) (hitWrong : Bool) (v : Int),
        t.gameRunning = true → t.snake.body ≠ [] → t.currentQuestion = some q →
        t.snake.virtualLength = some v → 0 < v →
        ∃ t', update true hitWrong t = .done t' ∧
          t'.snake.virtualLength = some (v + q.num2) ∧ v < v + q.num2 ∧ v + q.num2 ≤ v + 6 :=
  ⟨by decide, by decide,
    accepted_addend_range 21 2 (fun _ => halfDraw) (playingState 21 3 45)
      (withQuestion (playingState 21 3 45) { num1 := 45, num2 := 4, answer := 49 } 46)
      (by decide) (by decide)⟩

/-- C23: in a running game whose snake has a head, a tick with the head on the
wrong block (and not on the correct block) returns with `snake.body` exactly one
segment longer and `snake.virtualLength` unchanged, and a tick with no collision
returns with `snake.body` as long as before (and `snake.virtualLength`
unchanged). -/
theorem body_length_per_tick (s : State) (hrun : s.gameRunning = true)
    (hbody : s.snake.body ≠ []) :
    (∃ s', update false true s = .done s' ∧
      s'.snake.body.length = s.snake.body.length + 1 ∧
      s'.snake.virtualLength = s.snake.virtualLength) ∧
    (∃ s', update false false s = .done s' ∧
      s'.snake.body.length = s.snake.body.length ∧
      s'.snake.virtualLength = s.snake.virtualLength) := by
  obtain ⟨x, rest, hx⟩ := List.exists_cons_of_ne_nil hbody
  constructor
  · refine ⟨_, update_miss_eq true s hrun x rest hx, ?_, rfl⟩
    simp [hx]
  · refine ⟨_, update_miss_eq false s hrun x rest hx, ?_, rfl⟩
    simp [hx]

/-- C23, witness: the state after `init` with all draws 0 (a snake of one
segment): two segments after a wrong-answer tick, one after a tick with no
collision. -/
theorem body_length_per_tick_witness :
    firstState.gameRunning = true ∧ firstState.snake.body ≠ [] ∧
    firstState.snake.body.length = 1 ∧
    ((∃ s', update false true firstState = .done s' ∧
        s'.snake.body.length = firstState.snake.body.length + 1 ∧
        s'.snake.virtualLength = firstState.snake.virtualLength) ∧
      (∃ s', update false false firstState = .done s' ∧
        s'.snake.body.length = firstState.snake.body.length ∧
        s'.snake.virtualLength = firstState.snake.virtualLength)) :=
  ⟨by decide, by decide, by decide,
    body_length_per_tick firstState (by decide) (by decide)⟩


end FunMath
